import Mathlib

/-!
Verification of the AgentForge runner backend.

The repository holds two Python backends:
`src/runner/src-tauri/resources/python/agent_server.py` (the tool-call
pipeline: `ToolExecutor`, `RequestHandler.process_tool_calls`, provider
payload builders, routing) and
`src/agentforge-runner/src-tauri/resources/python/agent_runner.py`
(a FastAPI variant with `run_agent`).  This file gives a shallow
embedding of those parts in Lean: Python strings become `List Char`,
Python/JSON values become `PyVal`, external facilities (the filesystem,
`ast.parse`, subprocesses, the network) become oracle parameters, and
side effects become explicit `Effect` traces.  The theorems at the end
settle the specification claims.
-/

namespace AgentForge

/-- Python strings are modelled as lists of characters. -/
abbrev Str := List Char

/-- Model of the Python/JSON value universe used by the server: the
values appearing in tool inputs, tool results and JSON payloads.
Numbers are modelled exactly as rationals (`num`), covering Python ints
and the dyadic rationals denoted by float literals. -/
inductive PyVal where
  | pyNone : PyVal
  | bool (b : Bool) : PyVal
  | num (q : ℚ) : PyVal
  | str (s : Str) : PyVal
  | list (xs : List PyVal) : PyVal
  | dict (kvs : List (Str × PyVal)) : PyVal

/-- Observable side effects of the tool handlers: filesystem accesses,
temporary-file lifecycle, child-process spawns and outbound HTTP calls.
A handler returns its result together with the trace of effects it
performed, in order. -/
inductive Effect where
  | fsRead (path : Str)
  | fsWrite (path : Str) (mode : Str)
  | mkdirs (dir : Str)
  | tmpCreate (path : Str)
  | spawn (path : Str)
  | unlink (path : Str)
  | httpCall (url : Str)
deriving DecidableEq

/-- Lookup of a key in a Python dict modelled as an association list
(first match; the model keeps keys unique as Python dicts do). -/
def dictLookup (kvs : List (Str × PyVal)) (k : Str) : Option PyVal :=
  match kvs with
  | [] => Option.none
  | (k2, v) :: rest => if k2 = k then some v else dictLookup rest k

/-- Model of Python dict assignment `d[k] = v`: an existing key keeps its
position and gets the new value, a new key is appended. -/
def dictInsert (kvs : List (Str × PyVal)) (k : Str) (v : PyVal) :
    List (Str × PyVal) :=
  match kvs with
  | [] => [(k, v)]
  | (k2, v2) :: rest =>
      if k2 = k then (k2, v) :: rest else (k2, v2) :: dictInsert rest k v

/-- Python truthiness of a value (`if x:`). -/
def pyTruthy : PyVal → Bool
  | .pyNone => false
  | .bool b => b
  | .num q => if q = 0 then false else true
  | .str s => if s = [] then false else true
  | .list [] => false
  | .list (_ :: _) => true
  | .dict [] => false
  | .dict (_ :: _) => true

/-- Model of `input_data.get(key, default)`: on a dict it returns the
stored value or the default; on anything else Python raises
`AttributeError`, which the embedding surfaces as `Except.error` so that
the caller decides (for the tool handlers, the extraction happens before
the handler's own `try`, so the raise escapes to the catch-all in
`ToolExecutor.execute`). -/
def pyGet (v : PyVal) (key : Str) (dflt : PyVal) : Except Str PyVal :=
  match v with
  | .dict kvs => .ok ((dictLookup kvs key).getD dflt)
  | _ => .error "AttributeError: object has no attribute get".data

/-- The uniform failure dict the handlers build:
`{"success": False, "error": msg}`. -/
def errDict (msg : Str) : PyVal :=
  .dict [("success".data, .bool false), ("error".data, .str msg)]

/-- Binary operator kinds of the Python `ast` grammar appearing under
`ast.BinOp`.  The executor's `ops` table supports the first five; every
other operator (`Mod`, `FloorDiv`, bit operators, shifts, `MatMult`) is
grouped as `unsupported` and hits the `KeyError` path of
`ops[type(node.op)]` in `eval_expr`. -/
inductive BinK where
  | add | sub | mult | div | pow
  | unsupported (pyName : Str)
deriving DecidableEq

/-- Unary operator kinds under `ast.UnaryOp`: the table supports only
`USub`; `UAdd`, `Not` and `Invert` are grouped as `unsupported`. -/
inductive UnK where
  | usub
  | unsupported (pyName : Str)
deriving DecidableEq

/-- Abstract syntax of Python expressions as produced by
`ast.parse(expression, mode='eval')`, restricted to the node kinds the
walker `eval_expr` distinguishes.  `eval_expr` raises `TypeError` on
`call`, `nameExpr`, `attrAccess`, `strLit` and `otherNode` without ever
inspecting their children, so those constructors elide the subtrees
Python would carry. -/
inductive PyExpr where
  | numLit (q : ℚ)
  | binop (op : BinK) (l r : PyExpr)
  | unop (op : UnK) (e : PyExpr)
  | call
  | nameExpr (id : Str)
  | attrAccess
  | strLit (s : Str)
  | otherNode
deriving DecidableEq

/-- Model of `operator.pow` on the rational value model: `0` raised to a
negative power raises `ZeroDivisionError` (as in Python); integral
exponents are exact.  For a non-integral exponent Python computes a
float (or complex) power and succeeds; its value is irrational in
general and is modelled as `0` here — no theorem below depends on the
value of that branch, only on its success.  Python float overflow and
rounding are not modelled (values are exact rationals). -/
def pypow (a b : ℚ) : Except Str ℚ :=
  if a = 0 ∧ b < 0 then
    .error "0 cannot be raised to a negative power".data
  else if b.den = 1 then .ok (a ^ b.num)
  else .ok 0

/-- The supported-operator table `ops` of `execute_calculator`,
restricted to `ast.BinOp` keys: `Add`, `Sub`, `Mult`, `Div` (true
division, raising `ZeroDivisionError` on a zero divisor), `Pow`.
An operator absent from the table yields `Option.none`, matching the
`KeyError` raised by `ops[type(node.op)]`. -/
def binOpFn : BinK → Option (ℚ → ℚ → Except Str ℚ)
  | .add => some (fun a b => .ok (a + b))
  | .sub => some (fun a b => .ok (a - b))
  | .mult => some (fun a b => .ok (a * b))
  | .div => some (fun a b =>
      if b = 0 then .error "division by zero".data else .ok (a / b))
  | .pow => some pypow
  | .unsupported _ => Option.none

/-- The `ops` table restricted to `ast.UnaryOp` keys: only `USub`. -/
def unOpFn : UnK → Option (ℚ → Except Str ℚ)
  | .usub => some (fun a => .ok (-a))
  | .unsupported _ => Option.none

/-- Shallow embedding of the recursive walker `eval_expr` inside
`ToolExecutor.execute_calculator` (`agent_server.py` lines 88–96):
numeric literals evaluate to themselves; a `BinOp`/`UnaryOp` first looks
its operator up in `ops` (raising `KeyError` if absent — in Python the
lookup happens before the children are evaluated), then evaluates the
children left to right; every other node kind raises `TypeError`.
Raises are modelled as `Except.error`. -/
def eval_expr : PyExpr → Except Str ℚ
  | .numLit q => .ok q
  | .binop op l r =>
      match binOpFn op with
      | Option.none => .error "KeyError: unsupported operator".data
      | some f =>
          match eval_expr l with
          | .error m => .error m
          | .ok a =>
              match eval_expr r with
              | .error m => .error m
              | .ok b => f a b
  | .unop op e =>
      match unOpFn op with
      | Option.none => .error "KeyError: unsupported operator".data
      | some f =>
          match eval_expr e with
          | .error m => .error m
          | .ok a => f a
  | .call => .error "Unsupported type: Call".data
  | .nameExpr _ => .error "Unsupported type: Name".data
  | .attrAccess => .error "Unsupported type: Attribute".data
  | .strLit _ => .error "Unsupported type: Constant".data
  | .otherNode => .error "Unsupported type".data

/-- The restricted arithmetic grammar of the specification: numeric
literals combined by addition, subtraction, multiplication, division,
exponentiation and unary negation, and nothing else. -/
def onlyArith : PyExpr → Bool
  | .numLit _ => true
  | .binop op l r =>
      (match op with
       | .unsupported _ => false
       | _ => true) && onlyArith l && onlyArith r
  | .unop op e =>
      (match op with
       | .usub => true
       | .unsupported _ => false) && onlyArith e
  | _ => false

/-- Whether an expression contains a function call, a name lookup or an
attribute access anywhere. -/
def containsForbidden : PyExpr → Bool
  | .numLit _ => false
  | .binop _ l r => containsForbidden l || containsForbidden r
  | .unop _ e => containsForbidden e
  | .call => true
  | .nameExpr _ => true
  | .attrAccess => true
  | .strLit _ => false
  | .otherNode => false

/-- Shallow embedding of `ToolExecutor.execute_calculator`
(`agent_server.py` lines 67–103).  The `expression` and `operation`
fields are extracted from the input dict before the handler's own `try`
(an exception there escapes to `ToolExecutor.execute`); inside the
`try`, `ast.parse` (modelled by the oracle `pyParse`; `Option.none`
models a `SyntaxError` on a malformed expression, and a non-string
argument raises) is followed by `eval_expr`; any raise inside the `try`
is caught and returned as a `Calculation error` dict.  The handler
touches no external resource, so its effect trace is empty. -/
def execute_calculator (pyParse : Str → Option PyExpr) (input : PyVal) :
    Except Str PyVal × List Effect :=
  match pyGet input "expression".data (.str "".data) with
  | .error e => (.error e, [])
  | .ok exprV =>
      match pyGet input "operation".data (.str "evaluate".data) with
      | .error e => (.error e, [])
      | .ok _ =>
          match exprV with
          | .str s =>
              match pyParse s with
              | Option.none =>
                  (.ok (errDict ("Calculation error: invalid syntax".data)), [])
              | some e =>
                  match eval_expr e with
                  | .ok v =>
                      (.ok (.dict [("success".data, .bool true),
                                   ("result".data, .num v)]), [])
                  | .error m =>
                      (.ok (errDict ("Calculation error: ".data ++ m)), [])
          | _ =>
              (.ok (errDict
                ("Calculation error: expression is not a string".data)), [])

/-- Whitespace skipping between JSON tokens (model of what `json.loads`
tolerates). -/
def skipWs (s : Str) : Str :=
  s.dropWhile (fun c => c = ' ' || c = '\t' || c = '\n' || c = '\r')

/-- Expect a literal character sequence at the head of the input and
return the remainder past it. -/
def dropLit : Str → Str → Option Str
  | [], s => some s
  | _ :: _, [] => Option.none
  | c :: cs, d :: ds => if d = c then dropLit cs ds else Option.none

/-- Body of a JSON string after the opening quote: returns the decoded
characters and the input remaining after the closing quote.  The
escapes for quote, backslash, slash, newline, tab and carriage return
are decoded; other escape forms are not modelled (no claim depends on
them). -/
def parseStringBody : Str → Option (Str × Str)
  | [] => Option.none
  | c :: rest =>
      if c = '"' then some ([], rest)
      else if c = '\\' then
        match rest with
        | [] => Option.none
        | e :: rest2 =>
            let dec : Option Char :=
              if e = '"' then some '"'
              else if e = '\\' then some '\\'
              else if e = '/' then some '/'
              else if e = 'n' then some '\n'
              else if e = 't' then some '\t'
              else if e = 'r' then some '\r'
              else Option.none
            match dec with
            | Option.none => Option.none
            | some d =>
                match parseStringBody rest2 with
                | some (cs, r) => some (d :: cs, r)
                | Option.none => Option.none
      else
        match parseStringBody rest with
        | some (cs, r) => some (c :: cs, r)
        | Option.none => Option.none

/-- Decimal digits to a natural number. -/
def digitsToNat (ds : Str) : ℕ :=
  ds.foldl (fun a c => a * 10 + (c.toNat - 48)) 0

/-- JSON number parsing, modelling the fragment the server exchanges:
an optional minus sign, an integer part and an optional fraction
(exponents are not modelled; no claim depends on them). -/
def parseNumber (s : Str) : Option (ℚ × Str) :=
  let negAndRest : Bool × Str :=
    match s with
    | '-' :: r => (true, r)
    | _ => (false, s)
  let s1 := negAndRest.2
  let ds := s1.takeWhile Char.isDigit
  if ds = [] then Option.none
  else
    let rest := s1.drop ds.length
    let qAndRest : ℚ × Str :=
      match rest with
      | '.' :: r2 =>
          let fs := r2.takeWhile Char.isDigit
          if fs = [] then ((digitsToNat ds : ℚ), rest)
          else (((digitsToNat ds : ℚ)
                   + (digitsToNat fs : ℚ) / ((10 : ℚ) ^ fs.length)),
                r2.drop fs.length)
      | _ => ((digitsToNat ds : ℚ), rest)
    some (if negAndRest.1 then -qAndRest.1 else qAndRest.1, qAndRest.2)

mutual

/-- Recursive JSON value parsing with fuel (model of the stdlib
`json.loads` grammar).  Returns the value and the unconsumed input. -/
def jparseVal : ℕ → Str → Option (PyVal × Str)
  | 0, _ => Option.none
  | fuel + 1, s =>
      match skipWs s with
      | [] => Option.none
      | c :: rest =>
          if c = '"' then
            match parseStringBody rest with
            | some (cs, r) => some (.str cs, r)
            | Option.none => Option.none
          else if c = 't' then
            match dropLit "rue".data rest with
            | some r => some (.bool true, r)
            | Option.none => Option.none
          else if c = 'f' then
            match dropLit "alse".data rest with
            | some r => some (.bool false, r)
            | Option.none => Option.none
          else if c = 'n' then
            match dropLit "ull".data rest with
            | some r => some (.pyNone, r)
            | Option.none => Option.none
          else if c = '\x7b' then jparseObj fuel rest []
          else if c = '[' then jparseArr fuel rest []
          else
            match parseNumber (c :: rest) with
            | some (q, r) => some (.num q, r)
            | Option.none => Option.none

/-- Object members after the opening brace, accumulated with
`dictInsert` (so duplicate keys keep the last value, as in Python). -/
def jparseObj : ℕ → Str → List (Str × PyVal) → Option (PyVal × Str)
  | 0, _, _ => Option.none
  | fuel + 1, s, acc =>
      match skipWs s with
      | '\x7d' :: rest =>
          (match acc with
           | [] => some (.dict [], rest)
           | _ => Option.none)
      | '"' :: rest =>
          (match parseStringBody rest with
           | Option.none => Option.none
           | some (k, r1) =>
               match skipWs r1 with
               | ':' :: r2 =>
                   (match jparseVal fuel r2 with
                    | Option.none => Option.none
                    | some (v, r3) =>
                        let acc2 := dictInsert acc k v
                        match skipWs r3 with
                        | ',' :: r4 => jparseObj fuel r4 acc2
                        | '\x7d' :: r4 => some (.dict acc2, r4)
                        | _ => Option.none)
               | _ => Option.none)
      | _ => Option.none

/-- Array elements after the opening bracket. -/
def jparseArr : ℕ → Str → List PyVal → Option (PyVal × Str)
  | 0, _, _ => Option.none
  | fuel + 1, s, acc =>
      match skipWs s with
      | ']' :: rest =>
          (match acc with
           | [] => some (.list [], rest)
           | _ => Option.none)
      | s2 =>
          match jparseVal fuel s2 with
          | Option.none => Option.none
          | some (v, r1) =>
              match skipWs r1 with
              | ',' :: r2 => jparseArr fuel r2 (acc ++ [v])
              | ']' :: r2 => some (.list (acc ++ [v]), r2)
              | _ => Option.none

end

/-- Model of `json.loads`: parse one complete JSON document; trailing
whitespace is allowed, any other leftover input is a failure. -/
def jparse (s : Str) : Option PyVal :=
  match jparseVal (s.length + 1) s with
  | some (v, r) =>
      (match skipWs r with
       | [] => some v
       | _ => Option.none)
  | Option.none => Option.none

/-- Escaping applied by `json.dumps` to string content (quote,
backslash and the common control characters). -/
def jescape : Str → Str
  | [] => []
  | c :: r =>
      (if c = '"' then ['\\', '"']
       else if c = '\\' then ['\\', '\\']
       else if c = '\n' then ['\\', 'n']
       else if c = '\t' then ['\\', 't']
       else if c = '\r' then ['\\', 'r']
       else [c]) ++ jescape r

/-- Rendering of a number by `json.dumps` and `str`: integers print
exactly; the decimal rendering of Python floats is not modelled and a
non-integral rational prints as `num/den` (no theorem depends on that
branch). -/
def jdumpNum (q : ℚ) : Str :=
  if q.den = 1 then (toString q.num).data else (toString q).data

mutual

/-- Model of `json.dumps` with its default separators. -/
def jdump : PyVal → Str
  | .pyNone => "null".data
  | .bool true => "true".data
  | .bool false => "false".data
  | .num q => jdumpNum q
  | .str s => '"' :: (jescape s ++ ['"'])
  | .list xs => '[' :: (jdumpList xs ++ [']'])
  | .dict kvs => '\x7b' :: (jdumpDict kvs ++ ['\x7d'])

/-- Comma-separated rendering of array elements. -/
def jdumpList : List PyVal → Str
  | [] => []
  | [x] => jdump x
  | x :: y :: xs => jdump x ++ [',', ' '] ++ jdumpList (y :: xs)

/-- Comma-separated rendering of object members. -/
def jdumpDict : List (Str × PyVal) → Str
  | [] => []
  | [(k, v)] => '"' :: (jescape k ++ ['"', ':', ' ']) ++ jdump v
  | (k, v) :: p :: kvs =>
      ('"' :: (jescape k ++ ['"', ':', ' ']) ++ jdump v) ++ [',', ' ']
        ++ jdumpDict (p :: kvs)

end

/-- Python `str()` of the values that can appear in the f-strings of
the embedded code (the repr-style rendering of containers and the
decimal rendering of floats are not modelled; no theorem depends on
them). -/
def pyStrOf : PyVal → Str
  | .pyNone => "None".data
  | .bool true => "True".data
  | .bool false => "False".data
  | .num q => jdumpNum q
  | .str s => s
  | .list _ => "<list>".data
  | .dict _ => "<dict>".data

/-- Python `==` between an arbitrary value and a string (false whenever
the value is not a string). -/
def pyEqStr (v : PyVal) (s : Str) : Bool :=
  match v with
  | .str t => t == s
  | _ => false

/-- Outcome of `subprocess.run([sys.executable, temp_path], ...)` in
`execute_code`: normal completion with an exit code and captured
output, `subprocess.TimeoutExpired`, or some other raised exception. -/
inductive RunOutcome where
  | completed (returncode : ℤ) (stdout stderr : Str)
  | timedOut
  | raised (msg : Str)

/-- Outcome of `urllib.request.urlopen` in `execute_http_request`: a
response, an `urllib.error.HTTPError`, or another exception. -/
inductive HttpOutcome where
  | success (status : ℤ) (headers : List (Str × Str)) (body : Str)
  | errorStatus (code : ℤ) (msg : Str)
  | failed (msg : Str)

/-- Oracle for everything outside the embedded code: results of stdlib
calls and external interactions (`ast.parse`, the `os.path` functions,
`os.path.expanduser`, the filesystem, the temporary-file name, the
spawned child process, the environment and the network).  Handlers
consume the oracle and record the `Effect`s they perform. -/
structure World where
  pyParse : Str → Option PyExpr
  abspath : Str → Str
  dirname : Str → Str
  home : Str
  readFile : Str → Except Str Str
  writeFile : Str → Str → Str → Except Str Unit
  mkdirsResult : Str → Except Str Unit
  tmpName : Str
  runOutcome : RunOutcome
  envTavilyKey : Option Str
  searchOutcome : Except Str (List PyVal)
  httpOutcome : HttpOutcome

/-- Shallow embedding of `ToolExecutor.execute_file_read`
(`agent_server.py` lines 135–159): extract `path` and `encoding`
before the handler's `try`; inside it, resolve the path with
`os.path.abspath`, refuse unless the absolute path starts with the
home-directory string or with `/tmp` (a string-prefix test, not a
directory-containment test), and only then open and read the file.
The denial branch performs no filesystem effect. -/
def execute_file_read (w : World) (input : PyVal) :
    Except Str PyVal × List Effect :=
  match pyGet input "path".data (.str "".data) with
  | .error e => (.error e, [])
  | .ok pathV =>
  match pyGet input "encoding".data (.str "utf-8".data) with
  | .error e => (.error e, [])
  | .ok _ =>
      match pathV with
      | .str p =>
          let absp := w.abspath p
          if !(w.home.isPrefixOf absp || "/tmp".data.isPrefixOf absp) then
            (.ok (errDict
               "Access denied: Can only read files in home directory".data),
             [])
          else
            match w.readFile absp with
            | .ok content =>
                (.ok (.dict [("success".data, .bool true),
                             ("content".data, .str content),
                             ("path".data, .str absp),
                             ("size".data, .num (content.length : ℚ))]),
                 [.fsRead absp])
            | .error e =>
                (.ok (errDict ("File read error: ".data ++ e)), [.fsRead absp])
      | _ => (.ok (errDict "File read error: path is not a string".data), [])

/-- Shallow embedding of `ToolExecutor.execute_file_write`
(`agent_server.py` lines 161–188): same prefix-based confinement check
as `execute_file_read` before any filesystem effect; on the allowed
branch it creates the parent directory (`os.makedirs`), opens the file
in write or append mode, writes and reports `len(content)` bytes. -/
def execute_file_write (w : World) (input : PyVal) :
    Except Str PyVal × List Effect :=
  match pyGet input "path".data (.str "".data) with
  | .error e => (.error e, [])
  | .ok pathV =>
  match pyGet input "content".data (.str "".data) with
  | .error e => (.error e, [])
  | .ok contentV =>
  match pyGet input "mode".data (.str "write".data) with
  | .error e => (.error e, [])
  | .ok modeV =>
      match pathV with
      | .str p =>
          let absp := w.abspath p
          if !(w.home.isPrefixOf absp || "/tmp".data.isPrefixOf absp) then
            (.ok (errDict
               "Access denied: Can only write files in home directory".data),
             [])
          else
            let dir := w.dirname absp
            match w.mkdirsResult dir with
            | .error e =>
                (.ok (errDict ("File write error: ".data ++ e)), [.mkdirs dir])
            | .ok _ =>
                let fm :=
                  if pyEqStr modeV "append".data then "a".data else "w".data
                match contentV with
                | .str c =>
                    (match w.writeFile absp fm c with
                     | .ok _ =>
                         (.ok (.dict [("success".data, .bool true),
                                      ("path".data, .str absp),
                                      ("bytes_written".data,
                                       .num (c.length : ℚ))]),
                          [.mkdirs dir, .fsWrite absp fm])
                     | .error e =>
                         (.ok (errDict ("File write error: ".data ++ e)),
                          [.mkdirs dir, .fsWrite absp fm]))
                | _ =>
                    (.ok (errDict
                       "File write error: content is not a string".data),
                     [.mkdirs dir, .fsWrite absp fm])
      | _ => (.ok (errDict "File write error: path is not a string".data), [])

/-- Shallow embedding of `ToolExecutor.execute_code` (`agent_server.py`
lines 190–222): write the submitted code to a temporary file, run it as
a child process under the caller-supplied timeout (default 30), and
delete the temporary file in a `finally` block, so the `unlink` effect
happens on completion, on `TimeoutExpired` and on every other raise
from the `subprocess.run` call alike.  A timeout produces its own error
dict; completion reports `stdout`, `stderr` and `return_code` with
`success = (returncode == 0)`. -/
def execute_code (w : World) (input : PyVal) :
    Except Str PyVal × List Effect :=
  match pyGet input "code".data (.str "".data) with
  | .error e => (.error e, [])
  | .ok codeV =>
  match pyGet input "timeout".data (.num 30) with
  | .error e => (.error e, [])
  | .ok timeoutV =>
      match codeV with
      | .str _ =>
          let tmp := w.tmpName
          (match w.runOutcome with
           | .completed rc out err =>
               (.ok (.dict [("success".data, .bool (rc == 0)),
                            ("stdout".data, .str out),
                            ("stderr".data, .str err),
                            ("return_code".data, .num (rc : ℚ))]),
                [.tmpCreate tmp, .spawn tmp, .unlink tmp])
           | .timedOut =>
               (.ok (errDict ("Code execution timed out after ".data
                  ++ pyStrOf timeoutV ++ "s".data)),
                [.tmpCreate tmp, .spawn tmp, .unlink tmp])
           | .raised m =>
               (.ok (errDict ("Code execution error: ".data ++ m)),
                [.tmpCreate tmp, .spawn tmp, .unlink tmp]))
      | _ =>
          (.ok (errDict "Code execution error: code is not a string".data),
           [.tmpCreate w.tmpName])

/-- Split a character list at every occurrence of a separator. -/
def splitOn (sep : Char) : Str → List Str
  | [] => [[]]
  | c :: r =>
      let rest := splitOn sep r
      if c = sep then [] :: rest
      else
        match rest with
        | [] => [[c]]
        | g :: gs => (c :: g) :: gs

/-- Model of `csv.DictReader` on content without quoting: the first
line holds the column names and each later non-empty line is zipped
with them into a row dict (the quoting rules of the `csv` module and
ragged rows are not modelled; no claim depends on them). -/
def csvDictRows (delim : Char) (content : Str) : List (List (Str × PyVal)) :=
  match splitOn '\n' content with
  | [] => []
  | header :: dataLines =>
      let cols := splitOn delim header
      (dataLines.filter (fun l => !l.isEmpty)).map
        (fun l => cols.zip ((splitOn delim l).map PyVal.str))

/-- Shallow embedding of `ToolExecutor.execute_csv_read`
(`agent_server.py` lines 224–246): extract `path` and `delimiter`,
resolve the path with `os.path.abspath` and open it directly — there
is no confinement check — then parse with `csv.DictReader` and report
the rows, the row count and the column names (taken from the first
row, `[]` when there are no rows). -/
def execute_csv_read (w : World) (input : PyVal) :
    Except Str PyVal × List Effect :=
  match pyGet input "path".data (.str "".data) with
  | .error e => (.error e, [])
  | .ok pathV =>
  match pyGet input "delimiter".data (.str ",".data) with
  | .error e => (.error e, [])
  | .ok delimV =>
      match pathV with
      | .str p =>
          let absp := w.abspath p
          (match w.readFile absp with
           | .error e =>
               (.ok (errDict ("CSV read error: ".data ++ e)), [.fsRead absp])
           | .ok content =>
               match delimV with
               | .str [d] =>
                   let rows := csvDictRows d content
                   (.ok (.dict [("success".data, .bool true),
                                ("data".data, .list (rows.map PyVal.dict)),
                                ("row_count".data, .num (rows.length : ℚ)),
                                ("columns".data,
                                 .list (match rows with
                                        | [] => []
                                        | r :: _ =>
                                            r.map (fun kv => PyVal.str kv.1)))]),
                    [.fsRead absp])
               | _ =>
                   (.ok (errDict
                      "CSV read error: delimiter must be a one-character string".data),
                    [.fsRead absp]))
      | _ => (.ok (errDict "CSV read error: path is not a string".data), [])

/-- Shallow embedding of `ToolExecutor.execute_web_search`
(`agent_server.py` lines 105–133): the Tavily key comes from the
credentials dict when that is truthy, else from the environment; with
no key the handler returns the not-configured error without any call;
with a key it posts to the Tavily endpoint and reports the results or
a search error. -/
def execute_web_search (w : World) (input : PyVal)
    (credentials : Option PyVal) : Except Str PyVal × List Effect :=
  match pyGet input "query".data (.str "".data) with
  | .error e => (.error e, [])
  | .ok _ =>
  match pyGet input "num_results".data (.num 5) with
  | .error e => (.error e, [])
  | .ok _ =>
      let envVal : PyVal :=
        match w.envTavilyKey with
        | some k => .str k
        | Option.none => .pyNone
      let keyR : Except Str PyVal :=
        match credentials with
        | Option.none => .ok envVal
        | some cv =>
            if pyTruthy cv then
              match cv with
              | .dict kvs =>
                  .ok ((dictLookup kvs "tavily_api_key".data).getD .pyNone)
              | _ => .error "AttributeError: object has no attribute get".data
            else .ok envVal
      match keyR with
      | .error e => (.error e, [])
      | .ok keyV =>
          if pyTruthy keyV then
            match w.searchOutcome with
            | .ok results =>
                (.ok (.dict [("success".data, .bool true),
                             ("results".data, .list results)]),
                 [.httpCall "https://api.tavily.com/search".data])
            | .error e =>
                (.ok (errDict ("Search error: ".data ++ e)),
                 [.httpCall "https://api.tavily.com/search".data])
          else
            (.ok (errDict "No search API key configured".data), [])

/-- Shallow embedding of `ToolExecutor.execute_http_request`
(`agent_server.py` lines 248–291).  `method.upper()` runs during
extraction, so a non-string method raises before the handler's `try`;
request construction fails inside the `try` (no network effect) when
the url or headers have the wrong shape; the response body is
opportunistically parsed as JSON with a fallback to the raw text; an
`HTTPError` is reported with its status code and message. -/
def execute_http_request (w : World) (input : PyVal) :
    Except Str PyVal × List Effect :=
  match pyGet input "url".data (.str "".data) with
  | .error e => (.error e, [])
  | .ok urlV =>
  match pyGet input "method".data (.str "GET".data) with
  | .error e => (.error e, [])
  | .ok methodV =>
  match pyGet input "headers".data (.dict []) with
  | .error e => (.error e, [])
  | .ok headersV =>
  match pyGet input "body".data .pyNone with
  | .error e => (.error e, [])
  | .ok _ =>
  match pyGet input "timeout".data (.num 30) with
  | .error e => (.error e, [])
  | .ok _ =>
      match methodV with
      | .str _ =>
          (match urlV with
           | .str url =>
               (match headersV with
                | .dict _ =>
                    (match w.httpOutcome with
                     | .success status hdrs bodyText =>
                         let parsedBody : PyVal :=
                           match jparse bodyText with
                           | some v => v
                           | Option.none => .str bodyText
                         (.ok (.dict [("success".data, .bool true),
                                      ("status_code".data, .num (status : ℚ)),
                                      ("headers".data,
                                       .dict (hdrs.map
                                         (fun kv => (kv.1, PyVal.str kv.2)))),
                                      ("body".data, parsedBody)]),
                          [.httpCall url])
                     | .errorStatus code msg =>
                         (.ok (.dict [("success".data, .bool false),
                                      ("status_code".data, .num (code : ℚ)),
                                      ("error".data, .str msg)]),
                          [.httpCall url])
                     | .failed msg =>
                         (.ok (errDict ("HTTP request error: ".data ++ msg)),
                          [.httpCall url]))
                | _ =>
                    (.ok (errDict "HTTP request error: invalid headers".data),
                     []))
           | _ => (.ok (errDict "HTTP request error: invalid url".data), []))
      | _ => (.error "AttributeError: object has no attribute upper".data, [])

/-- The `try`/`except` boundary of `ToolExecutor.execute`: a raise
escaping a handler (modelled as `Except.error`) becomes the uniform
`{"success": False, "error": str(e)}` dict, so no exception crosses
the executor boundary. -/
def wrapExec (r : Except Str PyVal × List Effect) : PyVal × List Effect :=
  match r with
  | (.ok d, effs) => (d, effs)
  | (.error e, effs) => (errDict e, effs)

/-- The tool identifiers present in the dispatch table of
`ToolExecutor.execute`. -/
def knownTools : List Str :=
  ["calculator".data, "web_search".data, "file_read".data, "file_write".data,
   "code_execute".data, "csv_read".data, "http_request".data]

/-- Shallow embedding of `ToolExecutor.execute` (`agent_server.py`
lines 44–65): string dispatch over the tool identifier; an unknown
identifier yields the uniform not-implemented error dict; the
surrounding `try`/`except` turns any exception escaping a handler into
a `{"success": False, "error": str(e)}` dict, so no exception crosses
the executor boundary. -/
def ToolExecutor.execute (w : World) (tool_id : Str) (input : PyVal)
    (credentials : Option PyVal) : PyVal × List Effect :=
  if tool_id = "calculator".data then
    wrapExec (execute_calculator w.pyParse input)
  else if tool_id = "web_search".data then
    wrapExec (execute_web_search w input credentials)
  else if tool_id = "file_read".data then wrapExec (execute_file_read w input)
  else if tool_id = "file_write".data then
    wrapExec (execute_file_write w input)
  else if tool_id = "code_execute".data then wrapExec (execute_code w input)
  else if tool_id = "csv_read".data then wrapExec (execute_csv_read w input)
  else if tool_id = "http_request".data then
    wrapExec (execute_http_request w input)
  else
    (errDict ("Tool ".data ++ ['\''] ++ tool_id ++ ['\'']
       ++ " not implemented locally".data), [])

/-- Word characters of the regex class `\w` (ASCII model). -/
def isWordChar (c : Char) : Bool := c.isAlphanum || c = '_'

/-- Whitespace characters of the regex class `\s` (ASCII model). -/
def isSpaceChar (c : Char) : Bool :=
  c = ' ' || c = '\t' || c = '\n' || c = '\r' || c = '\x0b' || c = '\x0c'

/-- Expect one given character at the head of the input. -/
def expectChar (c : Char) : Str → Option Str
  | [] => Option.none
  | d :: r => if d = c then some r else Option.none

/-- Try to match the tool-call regex `\[TOOL:\s*(\w+)\]\s*(\x7b[^\x7d]+\x7d)`
at the start of the input; on success return the two capture groups
(tool identifier and argument text including its braces) and the input
remaining after the match.  Greedy `takeWhile` runs model the greedy
character classes exactly, since no backtracking can help this
pattern. -/
def matchMarker (s : Str) : Option (Str × Str × Str) :=
  (dropLit "[TOOL:".data s).bind fun s1 =>
  let s2 := s1.dropWhile isSpaceChar
  let tid := s2.takeWhile isWordChar
  if tid.isEmpty then Option.none
  else
    (expectChar ']' (s2.drop tid.length)).bind fun r3 =>
    let r4 := r3.dropWhile isSpaceChar
    (expectChar '\x7b' r4).bind fun r5 =>
    let body := r5.takeWhile (fun c => !(c = '\x7d'))
    if body.isEmpty then Option.none
    else
      (expectChar '\x7d' (r5.drop body.length)).map fun r6 =>
      (tid, '\x7b' :: (body ++ ['\x7d']), r6)

/-- Scanner loop of `re.findall(pattern, response)` for the tool-call
pattern: scan left to right, taking non-overlapping matches and
resuming right after each match, else advancing one character.  Each
step consumes at least one character, so fuel `s.length + 1` (supplied
by `findall`) always suffices and the fuel-exhaustion branch is never
reached from `findall`. -/
def findallAux : ℕ → Str → List (Str × Str)
  | 0, _ => []
  | f + 1, s =>
      match matchMarker s with
      | some (t, p, r) => (t, p) :: findallAux f r
      | Option.none =>
          match s with
          | [] => []
          | _ :: rest => findallAux f rest

/-- Model of `re.findall(pattern, response)` for the tool-call
pattern. -/
def findall (s : Str) : List (Str × Str) :=
  findallAux (s.length + 1) s

/-- Scanner loop of Python `str.replace(old, new)` (all
non-overlapping occurrences, left to right); fuel as in
`findallAux`.  The embedded code never calls it with an empty `old`;
that edge is modelled as the identity. -/
def replaceAllAux : ℕ → Str → Str → Str → Str
  | 0, s, _, _ => s
  | f + 1, s, old, new =>
      match old with
      | [] => s
      | o :: os =>
          match s with
          | [] => []
          | c :: rest =>
              if (o :: os).isPrefixOf (c :: rest) then
                new ++ replaceAllAux f (rest.drop os.length) (o :: os) new
              else
                c :: replaceAllAux f rest (o :: os) new

/-- Model of Python `str.replace(old, new)`. -/
def replaceAll (s old new : Str) : Str :=
  replaceAllAux (s.length + 1) s old new

/-- Whether `sub` occurs as a contiguous substring of `s`. -/
def subOccurs (sub s : Str) : Bool :=
  sub.isPrefixOf s ||
    match s with
    | [] => false
    | _ :: rest => subOccurs sub rest

/-- One `tool_results` entry for a marker whose arguments parsed:
`{"tool": ..., "input": ..., "result": ...}`. -/
def toolEntry (tid : Str) (params result : PyVal) : PyVal :=
  .dict [("tool".data, .str tid), ("input".data, params),
         ("result".data, result)]

/-- One `tool_results` entry for a marker whose argument text failed to
decode as JSON: `{"tool": ..., "error": str(e)}` (the exact exception
text of `json.JSONDecodeError` is data and is modelled by a fixed
message). -/
def parseErrEntry (tid : Str) : PyVal :=
  .dict [("tool".data, .str tid),
         ("error".data, .str "Expecting value".data)]

/-- The summarised payload
`result.get('result', result.get('error', 'No result'))`.  The
executor always returns a dict, so the non-dict branch is
unreachable. -/
def resSummaryVal (result : PyVal) : PyVal :=
  match result with
  | .dict kvs =>
      (dictLookup kvs "result".data).getD
        ((dictLookup kvs "error".data).getD (.str "No result".data))
  | _ => .str "No result".data

/-- The replacement text `[Tool {tool_id} result: {json.dumps(...)}]`. -/
def resultSummary (tid : Str) (result : PyVal) : Str :=
  "[Tool ".data ++ tid ++ " result: ".data ++ jdump (resSummaryVal result)
    ++ "]".data

/-- The exact text `[TOOL: {tool_id}] {params_str}` the rewrite step of
`process_tool_calls` searches for (note the fixed single spaces, which
need not coincide with the spacing the regex accepted). -/
def oldText (tid pstr : Str) : Str :=
  "[TOOL: ".data ++ tid ++ "] ".data ++ pstr

/-- The `for` loop of `process_tool_calls` over the regex matches:
thread the rewritten response text, accumulate one `tool_results`
entry per match and collect the effect traces of the executed tools. -/
def ptcLoop (w : World) (credentials : Option PyVal) :
    List (Str × Str) → Str → Str × List PyVal × List Effect
  | [], resp => (resp, [], [])
  | (tid, pstr) :: rest, resp =>
      match jparse pstr with
      | Option.none =>
          let r := ptcLoop w credentials rest resp
          (r.1, parseErrEntry tid :: r.2.1, r.2.2)
      | some params =>
          let er := ToolExecutor.execute w tid params credentials
          let resp2 :=
            replaceAll resp (oldText tid pstr) (resultSummary tid er.1)
          let r := ptcLoop w credentials rest resp2
          (r.1, toolEntry tid params er.1 :: r.2.1, er.2 ++ r.2.2)

/-- Shallow embedding of `RequestHandler.process_tool_calls`
(`agent_server.py` lines 399–427): find all tool-call markers with the
regex, then for each match decode the JSON argument text (a decode
failure is recorded as a per-invocation error entry and the loop
continues with the remaining matches), execute the tool, and replace
the canonical marker text by a summary of the result. -/
def process_tool_calls (w : World) (credentials : Option PyVal)
    (response : Str) : Str × List PyVal × List Effect :=
  ptcLoop w credentials (findall response) response

/-- A canonical chat message (`{"role": ..., "content": ...}`). -/
structure Msg where
  role : Str
  content : Str
deriving DecidableEq

/-- Payload shape shared by the OpenAI-compatible adapters
(`{"model": ..., "messages": ..., "temperature": ...}`). -/
structure OpenAIStylePayload where
  model : Str
  messages : List Msg
  temperature : ℚ
deriving DecidableEq

/-- Payload construction of `RequestHandler.call_openai`
(`agent_server.py` lines 476–496): canonical messages embedded
verbatim, system message inline. -/
def call_openai_payload (model : Str) (messages : List Msg)
    (temperature : ℚ) : OpenAIStylePayload :=
  ⟨model, messages, temperature⟩

/-- Payload construction of `RequestHandler.call_groq`
(`agent_server.py` lines 533–553): same shape, messages verbatim. -/
def call_groq_payload (model : Str) (messages : List Msg)
    (temperature : ℚ) : OpenAIStylePayload :=
  ⟨model, messages, temperature⟩

/-- Payload construction of `RequestHandler.call_xai`
(`agent_server.py` lines 583–603): same shape, messages verbatim. -/
def call_xai_payload (model : Str) (messages : List Msg)
    (temperature : ℚ) : OpenAIStylePayload :=
  ⟨model, messages, temperature⟩

/-- Payload of `RequestHandler.call_ollama` (`agent_server.py` lines
457–474): messages verbatim, plus `stream` and an options record
holding the temperature. -/
structure OllamaPayload where
  model : Str
  messages : List Msg
  stream : Bool
  temperature : ℚ
deriving DecidableEq

/-- Payload construction of `RequestHandler.call_ollama`. -/
def call_ollama_payload (model : Str) (messages : List Msg)
    (temperature : ℚ) : OllamaPayload :=
  ⟨model, messages, false, temperature⟩

/-- Payload of `RequestHandler.call_anthropic`: a separate optional
`system` field next to the message array. -/
structure AnthropicPayload where
  model : Str
  max_tokens : ℕ
  messages : List Msg
  temperature : ℚ
  system : Option Str
deriving DecidableEq

/-- Payload construction of `RequestHandler.call_anthropic`
(`agent_server.py` lines 498–531): iterate over the messages keeping
the content of the last system message and collecting the rest; a
separate `system` field is added when that content is truthy
(non-empty). -/
def call_anthropic_payload (model : Str) (messages : List Msg)
    (temperature : ℚ) : AnthropicPayload :=
  let system_msg := messages.foldl
    (fun acc m => if m.role = "system".data then m.content else acc) []
  let chat_msgs := messages.filter
    (fun m => if m.role = "system".data then false else true)
  { model := model, max_tokens := 4096, messages := chat_msgs,
    temperature := temperature,
    system := if system_msg = [] then Option.none else some system_msg }

/-- One entry of the `contents` array of the Google payload
(`{"role": ..., "parts": [{"text": ...}]}`). -/
structure GContent where
  role : Str
  text : Str
deriving DecidableEq

/-- Payload of `RequestHandler.call_google`: only `contents` and the
generation config — there is no field for a system instruction. -/
structure GooglePayload where
  contents : List GContent
  temperature : ℚ
deriving DecidableEq

/-- Payload construction of `RequestHandler.call_google`
(`agent_server.py` lines 555–581): messages with role `system` are
skipped outright; each remaining message maps role `user` to `user`
and anything else to `model`. -/
def call_google_payload (messages : List Msg) (temperature : ℚ) :
    GooglePayload :=
  { contents :=
      (messages.filter
        (fun m => if m.role = "system".data then false else true)).map
        (fun m =>
          { role := if m.role = "user".data then "user".data else "model".data,
            text := m.content }),
    temperature := temperature }

/-- Every string component of a Google payload (roles and text parts),
used to state that some text appears nowhere in the payload. -/
def googlePayloadStrings (p : GooglePayload) : List Str :=
  p.contents.foldr (fun c acc => c.role :: c.text :: acc) []

/-- The provider adapters reachable from `RequestHandler.handle_chat`. -/
inductive AdapterId where
  | ollama | openai | anthropic | groq | google | xai
deriving DecidableEq

/-- Shallow embedding of the provider-dispatch branch of
`RequestHandler.handle_chat` (`agent_server.py` lines 371–385): select
the adapter by the configured provider string; each adapter performs a
network call whose reply text is supplied by the oracle
`adapterReply`; an unrecognized identifier produces the reply
`Unknown provider: {provider}` and invokes no adapter.  Returns the
reply together with the list of adapters invoked. -/
def handle_chat_route (provider : Str) (adapterReply : AdapterId → Str) :
    Str × List AdapterId :=
  if provider = "ollama".data then (adapterReply .ollama, [.ollama])
  else if provider = "openai".data then (adapterReply .openai, [.openai])
  else if provider = "anthropic".data then
    (adapterReply .anthropic, [.anthropic])
  else if provider = "groq".data then (adapterReply .groq, [.groq])
  else if provider = "google".data then (adapterReply .google, [.google])
  else if provider = "xai".data then (adapterReply .xai, [.xai])
  else ("Unknown provider: ".data ++ provider, [])

/-- The provider identifiers `handle_chat` recognizes. -/
def supportedProviders : List Str :=
  ["ollama".data, "openai".data, "anthropic".data, "groq".data,
   "google".data, "xai".data]

/-- The network action `run_agent` of the FastAPI backend performs. -/
inductive RunnerAction where
  | notConfiguredReply
  | callOllama (model : PyVal)
  | callOpenai (model : PyVal)
  | callAnthropic (model : PyVal)

/-- Shallow embedding of `run_agent` (`agent_runner.py` lines
157–177): with an empty (falsy) config the agent answers with the
not-configured reply and calls nothing; provider `ollama` calls the
Ollama adapter with the configured model; `openai` and `anthropic`
require a truthy api key; every other case — in particular any
unrecognized provider identifier — falls through to the final `else`
and calls the Ollama adapter with its default model `llama3.2`. -/
def run_agent (cfg : List (Str × PyVal)) : RunnerAction :=
  match cfg with
  | [] => .notConfiguredReply
  | _ :: _ =>
      let provider :=
        (dictLookup cfg "provider".data).getD (.str "ollama".data)
      let model :=
        (dictLookup cfg "model".data).getD (.str "llama3.2".data)
      let api_key := (dictLookup cfg "apiKey".data).getD (.str "".data)
      if pyEqStr provider "ollama".data then .callOllama model
      else if pyEqStr provider "openai".data && pyTruthy api_key then
        .callOpenai model
      else if pyEqStr provider "anthropic".data && pyTruthy api_key then
        .callAnthropic model
      else .callOllama (.str "llama3.2".data)

/-- Shallow embedding of `RequestHandler.handle_config_update`
(`agent_server.py` lines 451–454): `current_config.update(data)` —
every key of the payload overwrites or extends the current config by
shallow key overwrite, values replaced wholesale — followed by the
response `{"status": "updated"}`. -/
def handle_config_update (cur data : List (Str × PyVal)) :
    List (Str × PyVal) × PyVal :=
  (data.foldl (fun acc kv => dictInsert acc kv.1 kv.2) cur,
   .dict [("status".data, .str "updated".data)])

/-- The `tool_results` entry produced for one regex match by the loop
of `process_tool_calls`, as a function of the match alone (the
executor is stateless given the world oracle). -/
def matchEntry (w : World) (credentials : Option PyVal)
    (m : Str × Str) : PyVal :=
  match jparse m.2 with
  | Option.none => parseErrEntry m.1
  | some params =>
      toolEntry m.1 params (ToolExecutor.execute w m.1 params credentials).1

/-- Directory containment as the specification words it: a path lies
under directory `d` when it is `d` itself or begins with `d/`. -/
def underDir (p d : Str) : Bool :=
  (d ++ "/".data).isPrefixOf p || p == d

/-- A neutral concrete oracle used by the concrete instantiations in
the witnesses and counterexamples below. -/
def testWorld : World where
  pyParse := fun _ => Option.none
  abspath := fun p => p
  dirname := fun p => p
  home := "/home/user".data
  readFile := fun _ => .error "No such file or directory".data
  writeFile := fun _ _ _ => .ok ()
  mkdirsResult := fun _ => .ok ()
  tmpName := "/tmp/tmp123.py".data
  runOutcome := .timedOut
  envTavilyKey := Option.none
  searchOutcome := .error "unreachable".data
  httpOutcome := .failed "unreachable".data

/-- The uniform result shape of the executor: a dict with a boolean
`success` flag, plus either an `error` string or at least one payload
field next to the flag. -/
def resultWellFormed (d : PyVal) : Prop :=
  ∃ kvs b, d = PyVal.dict kvs
    ∧ dictLookup kvs "success".data = some (.bool b)
    ∧ ((∃ m, dictLookup kvs "error".data = some (.str m)) ∨ 2 ≤ kvs.length)

theorem eval_ok_onlyArith :
    ∀ (e : PyExpr) (v : ℚ), eval_expr e = .ok v → onlyArith e = true := by
  intro e
  induction e with
  | numLit q => intro v _; rfl
  | binop op l r ihl ihr =>
      intro v h
      cases op <;> simp only [eval_expr, binOpFn] at h
      case unsupported => exact absurd h (by simp)
      all_goals
        rcases hl : eval_expr l with m | a <;> rw [hl] at h
        · exact absurd h (by simp)
        · rcases hr : eval_expr r with m | b <;> rw [hr] at h
          · exact absurd h (by simp)
          · simp only [onlyArith, ihl a hl, ihr b hr, Bool.and_true]
  | unop op e ih =>
      intro v h
      cases op <;> simp only [eval_expr, unOpFn] at h
      case unsupported => exact absurd h (by simp)
      rcases he : eval_expr e with m | a <;> rw [he] at h
      · exact absurd h (by simp)
      · simp only [onlyArith, ih a he, Bool.and_true, Bool.true_and]
  | call => intro v h; exact absurd h (by simp [eval_expr])
  | nameExpr id => intro v h; exact absurd h (by simp [eval_expr])
  | attrAccess => intro v h; exact absurd h (by simp [eval_expr])
  | strLit s => intro v h; exact absurd h (by simp [eval_expr])
  | otherNode => intro v h; exact absurd h (by simp [eval_expr])

theorem containsForbidden_not_onlyArith :
    ∀ e : PyExpr, containsForbidden e = true → onlyArith e = false := by
  intro e
  induction e with
  | numLit q => intro h; exact absurd h (by simp [containsForbidden])
  | binop op l r ihl ihr =>
      intro h
      simp only [containsForbidden, Bool.or_eq_true] at h
      simp only [onlyArith, Bool.and_eq_false_iff]
      rcases h with h | h
      · left; right; exact ihl h
      · right; exact ihr h
  | unop op e ih =>
      intro h
      simp only [containsForbidden] at h
      simp only [onlyArith, Bool.and_eq_false_iff]
      right; exact ih h
  | call => intro _; rfl
  | nameExpr id => intro _; rfl
  | attrAccess => intro _; rfl
  | strLit s => intro h; exact absurd h (by simp [containsForbidden])
  | otherNode => intro h; exact absurd h (by simp [containsForbidden])

theorem eval_not_onlyArith_error (e : PyExpr) (h : onlyArith e = false) :
    ∃ m, eval_expr e = .error m := by
  rcases he : eval_expr e with m | v
  · exact ⟨m, rfl⟩
  · exact absurd (eval_ok_onlyArith e v he) (by simp [h])

theorem pyGet_ok_dict {v : PyVal} {key : Str} {d r : PyVal}
    (h : pyGet v key d = .ok r) : ∃ kvs, v = .dict kvs := by
  cases v
  case dict kvs => exact ⟨kvs, rfl⟩
  all_goals exact absurd h (by simp [pyGet])

theorem execute_calculator_parsed (pyParse : Str → Option PyExpr)
    (kvs : List (Str × PyVal)) (s : Str)
    (hs : pyGet (.dict kvs) "expression".data (.str "".data) = .ok (.str s)) :
    execute_calculator pyParse (.dict kvs)
      = (match pyParse s with
         | Option.none =>
             (.ok (errDict ("Calculation error: invalid syntax".data)), [])
         | some e =>
             match eval_expr e with
             | .ok v =>
                 (.ok (.dict [("success".data, .bool true),
                              ("result".data, .num v)]), [])
             | .error m =>
                 (.ok (errDict ("Calculation error: ".data ++ m)), [])) := by
  simp only [pyGet, Except.ok.injEq] at hs
  simp only [execute_calculator, pyGet, hs]

/-- C1: the calculator returns a structured result dict.  It succeeds
with a numeric value only when the parsed expression consists solely of
numeric literals combined by the five supported binary operators and
unary negation (`onlyArith`); any expression containing a function
call, name lookup or attribute access, any malformed expression (a
parse failure), and any division by zero all yield a
`success := false` dict carrying an error string, and no construct
outside the arithmetic grammar is ever evaluated (the walker raises on
such nodes without touching them). -/
theorem c1_calculator_security (pyParse : Str → Option PyExpr)
    (input : PyVal) (s : Str)
    (hs : pyGet input "expression".data (.str "".data) = .ok (.str s)) :
    (∀ e q, pyParse s = some e →
        execute_calculator pyParse input
          = (.ok (.dict [("success".data, .bool true),
                         ("result".data, .num q)]), []) →
        onlyArith e = true)
    ∧ (∀ e, pyParse s = some e → containsForbidden e = true →
        ∃ m, execute_calculator pyParse input
          = (.ok (errDict ("Calculation error: ".data ++ m)), []))
    ∧ (pyParse s = Option.none →
        execute_calculator pyParse input
          = (.ok (errDict ("Calculation error: invalid syntax".data)), []))
    ∧ (∀ a, pyParse s = some (.binop .div a (.numLit 0)) →
        ∃ m, execute_calculator pyParse input
          = (.ok (errDict ("Calculation error: ".data ++ m)), [])) := by
  obtain ⟨kvs, rfl⟩ := pyGet_ok_dict hs
  rw [execute_calculator_parsed pyParse kvs s hs]
  refine ⟨?_, ?_, ?_, ?_⟩
  · intro e q hp hres
    simp only [hp] at hres
    rcases he : eval_expr e with m | v
    · simp only [he, errDict] at hres
      exact absurd hres (by simp)
    · exact eval_ok_onlyArith e v he
  · intro e hp hforb
    obtain ⟨m, hm⟩ :=
      eval_not_onlyArith_error e (containsForbidden_not_onlyArith e hforb)
    refine ⟨m, ?_⟩
    simp only [hp, hm]
  · intro hp; rw [hp]
  · intro a hp
    simp only [hp, eval_expr, binOpFn]
    rcases ha : eval_expr a with m | v <;> simp only [ha]
    · exact ⟨m, rfl⟩
    · exact ⟨"division by zero".data, by simp⟩

theorem c1_calculator_security_witness :
    onlyArith (.numLit 3) = true
    ∧ ∃ m, execute_calculator (fun _ => some PyExpr.call)
        (.dict [("expression".data, .str "x".data)])
        = (.ok (errDict ("Calculation error: ".data ++ m)), []) := by
  constructor
  · exact (c1_calculator_security (fun _ => some (.numLit 3))
      (.dict [("expression".data, .str "3".data)]) "3".data rfl).1
      (.numLit 3) 3 rfl rfl
  · exact (c1_calculator_security (fun _ => some PyExpr.call)
      (.dict [("expression".data, .str "x".data)]) "x".data rfl).2.1
      PyExpr.call rfl rfl

theorem dictLookup_insert_self (kvs : List (Str × PyVal)) (k : Str)
    (v : PyVal) : dictLookup (dictInsert kvs k v) k = some v := by
  induction kvs with
  | nil => simp [dictInsert, dictLookup]
  | cons kv rest ih =>
      obtain ⟨k2, v2⟩ := kv
      simp only [dictInsert]
      split
      · next heq => simp [dictLookup, heq]
      · next hne => simp [dictLookup, hne, ih]

theorem dictLookup_insert_other (kvs : List (Str × PyVal)) (k k2 : Str)
    (v : PyVal) (hne : k ≠ k2) :
    dictLookup (dictInsert kvs k v) k2 = dictLookup kvs k2 := by
  induction kvs with
  | nil => simp [dictInsert, dictLookup, hne]
  | cons kv rest ih =>
      obtain ⟨k0, v0⟩ := kv
      simp only [dictInsert]
      split
      · next heq =>
          subst heq
          simp [dictLookup, hne]
      · next h0 => simp [dictLookup, ih]

theorem dictLookup_eq_none_of_not_mem (kvs : List (Str × PyVal)) (k : Str)
    (h : k ∉ kvs.map Prod.fst) : dictLookup kvs k = Option.none := by
  induction kvs with
  | nil => rfl
  | cons kv rest ih =>
      obtain ⟨k0, v0⟩ := kv
      simp only [List.map_cons, List.mem_cons] at h
      push_neg at h
      have hne : k0 ≠ k := fun he => h.1 he.symm
      simp [dictLookup, hne, ih h.2]

theorem config_update_lookup (data : List (Str × PyVal)) :
    ∀ (cur : List (Str × PyVal)) (k : Str),
      (data.map Prod.fst).Nodup →
      dictLookup (data.foldl (fun acc kv => dictInsert acc kv.1 kv.2) cur) k
        = (match dictLookup data k with
           | some v => some v
           | Option.none => dictLookup cur k) := by
  induction data with
  | nil => intro cur k _; simp [dictLookup]
  | cons kv rest ih =>
      intro cur k hnd
      obtain ⟨k0, v0⟩ := kv
      simp only [List.map_cons, List.nodup_cons] at hnd
      obtain ⟨hk0, hnd2⟩ := hnd
      simp only [List.foldl_cons]
      rw [ih (dictInsert cur k0 v0) k hnd2]
      by_cases hk : k0 = k
      · subst hk
        rw [dictLookup_eq_none_of_not_mem rest k0 hk0]
        simp [dictLookup, dictLookup_insert_self]
      · rcases hr : dictLookup rest k with _ | v
        · simp [hr, dictLookup, hk, dictLookup_insert_other cur k0 k v0 hk]
        · simp [hr, dictLookup, hk]

/-- C9: `POST /config` performs a shallow key overwrite of the current
configuration: every key of the current configuration absent from the
payload keeps its prior value, every key present in the payload takes
the payload value wholesale (no merge of nested structures), and the
response is `{"status": "updated"}`. -/
theorem c9_config_update (cur data : List (Str × PyVal)) (k : Str)
    (hnodup : (data.map Prod.fst).Nodup) :
    (dictLookup data k = Option.none →
      dictLookup (handle_config_update cur data).1 k = dictLookup cur k)
    ∧ (∀ v, dictLookup data k = some v →
      dictLookup (handle_config_update cur data).1 k = some v)
    ∧ (handle_config_update cur data).2
        = .dict [("status".data, .str "updated".data)] := by
  refine ⟨?_, ?_, rfl⟩
  · intro h
    simp only [handle_config_update]
    rw [config_update_lookup data cur k hnodup, h]
  · intro v h
    simp only [handle_config_update]
    rw [config_update_lookup data cur k hnodup, h]

theorem c9_config_update_witness :
    dictLookup (handle_config_update
        [("provider".data, .str "ollama".data),
         ("temperature".data, .num 1)]
        [("provider".data, .str "openai".data)]).1 "temperature".data
      = some (.num 1)
    ∧ dictLookup (handle_config_update
        [("provider".data, .str "ollama".data),
         ("temperature".data, .num 1)]
        [("provider".data, .str "openai".data)]).1 "provider".data
      = some (.str "openai".data) := by
  constructor
  · exact (c9_config_update
      [("provider".data, .str "ollama".data), ("temperature".data, .num 1)]
      [("provider".data, .str "openai".data)]
      "temperature".data (by decide)).1 rfl
  · exact (c9_config_update
      [("provider".data, .str "ollama".data), ("temperature".data, .num 1)]
      [("provider".data, .str "openai".data)]
      "provider".data (by decide)).2.1 (.str "openai".data) rfl

/-- C5 (amended): in `agent_server.py`, `handle_chat` given a provider
identifier outside the supported six returns the reply
`Unknown provider: {provider}` and invokes no adapter, as the claim
states.  In `agent_runner.py` however, `run_agent` given an
unrecognized provider identifier does not return an unknown-provider
reply: it falls back to calling the Ollama adapter with the default
model `llama3.2`, so a network call is attempted. -/
theorem c5_unknown_provider (provider : Str)
    (hun : provider ∉ supportedProviders)
    (adapterReply : AdapterId → Str)
    (cfg : List (Str × PyVal)) (hcfg : cfg ≠ [])
    (hp : (dictLookup cfg "provider".data).getD (.str "ollama".data)
            = .str provider) :
    handle_chat_route provider adapterReply
      = ("Unknown provider: ".data ++ provider, [])
    ∧ run_agent cfg = .callOllama (.str "llama3.2".data) := by
  simp only [supportedProviders, List.mem_cons,
    List.not_mem_nil, or_false] at hun
  push_neg at hun
  obtain ⟨h1, h2, h3, h4, h5, h6⟩ := hun
  constructor
  · simp [handle_chat_route, h1, h2, h3, h4, h5, h6]
  · cases cfg with
    | nil => exact absurd rfl hcfg
    | cons kv rest =>
        simp only [run_agent, hp, pyEqStr]
        have e1 : (provider == "ollama".data) = false :=
          beq_eq_false_iff_ne.mpr h1
        have e2 : (provider == "openai".data) = false :=
          beq_eq_false_iff_ne.mpr h2
        have e3 : (provider == "anthropic".data) = false :=
          beq_eq_false_iff_ne.mpr h3
        simp [e1, e2, e3]

/-- C5 counterexample: the claim also covers the FastAPI backend
(`agent_runner.py`, `run_agent`), and there it fails: configured with
the unrecognized provider `notaprovider`, the chat turn does not
produce an unknown-provider reply — it dispatches a network call to
the Ollama adapter with the default model instead. -/
theorem c5_counterexample :
    run_agent [("provider".data, .str "notaprovider".data)]
      = .callOllama (.str "llama3.2".data) := rfl

theorem c5_unknown_provider_witness :
    handle_chat_route "notaprovider2".data (fun _ => "ok".data)
      = ("Unknown provider: ".data ++ "notaprovider2".data, [])
    ∧ run_agent [("provider".data, .str "notaprovider2".data)]
      = .callOllama (.str "llama3.2".data) :=
  c5_unknown_provider "notaprovider2".data (by decide) (fun _ => "ok".data)
    [("provider".data, .str "notaprovider2".data)] (by simp) rfl

theorem foldl_system_none (rest : List Msg) :
    ∀ acc : Str, (∀ m ∈ rest, m.role ≠ "system".data) →
      rest.foldl (fun acc m =>
        if m.role = "system".data then m.content else acc) acc = acc := by
  induction rest with
  | nil => intro acc _; rfl
  | cons m rest ih =>
      intro acc h
      simp only [List.foldl_cons]
      rw [if_neg (h m (List.mem_cons_self m rest))]
      exact ih acc (fun m2 hm2 => h m2 (List.mem_cons_of_mem m hm2))

theorem filter_nonsystem_eq_self (rest : List Msg)
    (h : ∀ m ∈ rest, m.role ≠ "system".data) :
    rest.filter (fun m => if m.role = "system".data then false else true)
      = rest :=
  List.filter_eq_self.mpr (fun m hm => by simp [h m hm])

/-- C4 (amended): for a canonical message sequence, the OpenAI, Groq
and xAI adapters (and Ollama) embed the messages verbatim, keeping the
system message inline.  The Anthropic adapter removes the system
message from the array and carries its content in the separate
`system` payload field.  The Google adapter, contrary to the claim,
does not relocate the system message into a separate field: its
payload equals the payload of the conversation with the system message
deleted. -/
theorem c4_system_message_placement (model : Str) (msgs : List Msg)
    (temperature : ℚ) (sysC : Str) (rest : List Msg)
    (hmsgs : msgs = ⟨"system".data, sysC⟩ :: rest)
    (hrest : ∀ m ∈ rest, m.role ≠ "system".data)
    (hsys : sysC ≠ []) :
    (call_openai_payload model msgs temperature).messages = msgs
    ∧ (call_groq_payload model msgs temperature).messages = msgs
    ∧ (call_xai_payload model msgs temperature).messages = msgs
    ∧ (call_ollama_payload model msgs temperature).messages = msgs
    ∧ (call_anthropic_payload model msgs temperature).messages = rest
    ∧ (call_anthropic_payload model msgs temperature).system = some sysC
    ∧ call_google_payload msgs temperature
        = call_google_payload rest temperature := by
  subst hmsgs
  have hfil : (Msg.mk "system".data sysC :: rest).filter
      (fun m => if m.role = "system".data then false else true)
      = rest.filter (fun m => if m.role = "system".data then false else true) :=
    List.filter_cons_of_neg (by simp)
  refine ⟨rfl, rfl, rfl, rfl, ?_, ?_, ?_⟩
  · simp only [call_anthropic_payload]
    rw [hfil, filter_nonsystem_eq_self rest hrest]
  · simp [call_anthropic_payload, foldl_system_none rest sysC hrest, hsys]
  · simp only [call_google_payload, hfil]

theorem c4_system_message_placement_witness :
    (call_anthropic_payload "m".data
      [⟨"system".data, "S".data⟩, ⟨"user".data, "U".data⟩] 1).system
      = some "S".data
    ∧ call_google_payload
        [⟨"system".data, "S".data⟩, ⟨"user".data, "U".data⟩] 1
      = call_google_payload [⟨"user".data, "U".data⟩] 1 := by
  have h := c4_system_message_placement "m".data
    [⟨"system".data, "S".data⟩, ⟨"user".data, "U".data⟩] 1 "S".data
    [⟨"user".data, "U".data⟩] rfl (by decide) (by decide)
  exact ⟨h.2.2.2.2.2.1, h.2.2.2.2.2.2⟩

/-- C4 counterexample: the claim says the Google adapter extracts the
system message out of the message array into a separate payload field;
in fact `call_google_payload` drops it.  For the canonical sequence
`[system "Be helpful.", user "Hi"]` the whole payload is a single user
entry, and the system text occurs in no string component of the
payload. -/
theorem c4_counterexample :
    call_google_payload
      [⟨"system".data, "Be helpful.".data⟩, ⟨"user".data, "Hi".data⟩] 1
      = { contents := [⟨"user".data, "Hi".data⟩], temperature := 1 }
    ∧ "Be helpful.".data ∉ googlePayloadStrings
        (call_google_payload
          [⟨"system".data, "Be helpful.".data⟩, ⟨"user".data, "Hi".data⟩]
          1) :=
  ⟨rfl, by decide⟩

/-- C6: for a submitted code string and any timeout value, a child
process exceeding the timeout yields the distinct execution-timeout
error dict — carrying an error string and no return code, unlike the
non-zero-exit result, which carries the return code and no error
string — and the temporary file is unlinked on every exit path of the
operation: completion with any exit code, timeout, and any other raise
from the subprocess call. -/
theorem c6_code_execute (w : World) (input : PyVal) (code : Str)
    (tv : PyVal)
    (hc : pyGet input "code".data (.str "".data) = .ok (.str code))
    (ht : pyGet input "timeout".data (.num 30) = .ok tv) :
    Effect.unlink w.tmpName ∈ (execute_code w input).2
    ∧ (w.runOutcome = .timedOut →
        execute_code w input
          = (.ok (errDict ("Code execution timed out after ".data
               ++ pyStrOf tv ++ "s".data)),
             [.tmpCreate w.tmpName, .spawn w.tmpName, .unlink w.tmpName])
        ∧ ∃ kvs, (execute_code w input).1 = .ok (.dict kvs)
            ∧ dictLookup kvs "return_code".data = Option.none
            ∧ (∃ m, dictLookup kvs "error".data = some (.str m))
            ∧ dictLookup kvs "success".data = some (.bool false))
    ∧ (∀ rc out err, w.runOutcome = .completed rc out err →
        execute_code w input
          = (.ok (.dict [("success".data, .bool (rc == 0)),
                         ("stdout".data, .str out),
                         ("stderr".data, .str err),
                         ("return_code".data, .num (rc : ℚ))]),
             [.tmpCreate w.tmpName, .spawn w.tmpName, .unlink w.tmpName])
        ∧ ∃ kvs, (execute_code w input).1 = .ok (.dict kvs)
            ∧ dictLookup kvs "error".data = Option.none
            ∧ dictLookup kvs "return_code".data = some (.num (rc : ℚ)))
    ∧ (∀ m, w.runOutcome = .raised m →
        execute_code w input
          = (.ok (errDict ("Code execution error: ".data ++ m)),
             [.tmpCreate w.tmpName, .spawn w.tmpName, .unlink w.tmpName])) := by
  have hchar : execute_code w input
      = (match w.runOutcome with
         | .completed rc out err =>
             (.ok (.dict [("success".data, .bool (rc == 0)),
                          ("stdout".data, .str out),
                          ("stderr".data, .str err),
                          ("return_code".data, .num (rc : ℚ))]),
              [.tmpCreate w.tmpName, .spawn w.tmpName, .unlink w.tmpName])
         | .timedOut =>
             (.ok (errDict ("Code execution timed out after ".data
                ++ pyStrOf tv ++ "s".data)),
              [.tmpCreate w.tmpName, .spawn w.tmpName, .unlink w.tmpName])
         | .raised m =>
             (.ok (errDict ("Code execution error: ".data ++ m)),
              [.tmpCreate w.tmpName, .spawn w.tmpName, .unlink w.tmpName])) := by
    simp only [execute_code, hc, ht]
  refine ⟨?_, ?_, ?_, ?_⟩
  · rcases ho : w.runOutcome with ⟨rc, out, err⟩ | _ | m <;>
      simp only [ho] at hchar <;> rw [hchar] <;> simp
  · intro hto
    simp only [hto] at hchar
    refine ⟨hchar, ?_⟩
    rw [hchar]
    exact ⟨_, rfl, rfl, ⟨_, rfl⟩, rfl⟩
  · intro rc out err hco
    simp only [hco] at hchar
    refine ⟨hchar, ?_⟩
    rw [hchar]
    exact ⟨_, rfl, rfl, rfl⟩
  · intro m hra
    simp only [hra] at hchar
    exact hchar

theorem c6_code_execute_witness :
    Effect.unlink testWorld.tmpName
      ∈ (execute_code testWorld
          (.dict [("code".data, .str "import time".data)])).2
    ∧ execute_code testWorld
        (.dict [("code".data, .str "import time".data)])
        = (.ok (errDict ("Code execution timed out after ".data
             ++ pyStrOf (.num 30) ++ "s".data)),
           [.tmpCreate testWorld.tmpName, .spawn testWorld.tmpName,
            .unlink testWorld.tmpName]) := by
  have h := c6_code_execute testWorld
    (.dict [("code".data, .str "import time".data)])
    "import time".data (.num 30) rfl rfl
  exact ⟨h.1, (h.2.1 rfl).1⟩

/-- C2 (amended): the confinement check of `file_read` and
`file_write` runs before any filesystem access and is a string-prefix
test: whenever the absolute resolution of the requested path neither
starts with the home-directory string nor starts with `/tmp`, both
tools return the access-denied error dict and perform no filesystem
effect.  The prefix test is weaker than the directory containment the
claim asserts — a path such as `/tmpevil` lies outside both
directories yet passes it (see the counterexample) — so denial holds
exactly for the non-prefix paths, not for every path outside the two
directories. -/
theorem c2_sandbox_prefix (w : World) (input : PyVal) (p : Str)
    (hp : pyGet input "path".data (.str "".data) = .ok (.str p))
    (hout : w.home.isPrefixOf (w.abspath p) = false)
    (htmp : "/tmp".data.isPrefixOf (w.abspath p) = false) :
    execute_file_read w input
      = (.ok (errDict
          "Access denied: Can only read files in home directory".data), [])
    ∧ execute_file_write w input
      = (.ok (errDict
          "Access denied: Can only write files in home directory".data), []) := by
  obtain ⟨kvs, rfl⟩ := pyGet_ok_dict hp
  constructor
  · simp only [execute_file_read, hp]
    simp only [pyGet]
    simp [hout, htmp]
  · simp only [execute_file_write, hp]
    simp only [pyGet]
    simp [hout, htmp]

/-- C2 counterexample: the requested path `/tmpevil` resolves to
itself and lies outside both the home directory `/home/user` and the
system temporary directory `/tmp`, yet `file_read` does not return the
sandbox-violation error: the `startswith` test accepts it and the
handler opens and reads the file — a filesystem effect on a path the
claim says is denied untouched. -/
theorem c2_counterexample :
    underDir "/tmpevil".data "/tmp".data = false
    ∧ underDir "/tmpevil".data "/home/user".data = false
    ∧ execute_file_read
        { testWorld with readFile := fun _ => .ok "secret".data }
        (.dict [("path".data, .str "/tmpevil".data)])
        = (.ok (.dict [("success".data, .bool true),
                       ("content".data, .str "secret".data),
                       ("path".data, .str "/tmpevil".data),
                       ("size".data, .num (("secret".data).length : ℚ))]),
           [.fsRead "/tmpevil".data]) :=
  ⟨rfl, rfl, rfl⟩

theorem c2_sandbox_prefix_witness :
    execute_file_read testWorld
      (.dict [("path".data, .str "/etc/passwd".data)])
      = (.ok (errDict
          "Access denied: Can only read files in home directory".data), [])
    ∧ execute_file_write testWorld
      (.dict [("path".data, .str "/etc/passwd".data)])
      = (.ok (errDict
          "Access denied: Can only write files in home directory".data), []) :=
  c2_sandbox_prefix testWorld
    (.dict [("path".data, .str "/etc/passwd".data)]) "/etc/passwd".data
    rfl rfl rfl

/-- C10: `csv_read` performs no confinement check: for every requested
path string the handler opens the resolved absolute path and performs
the read effect — also when that path starts with neither the home
directory string nor `/tmp`, where `file_read` denies before any
filesystem access — and when the read succeeds it returns the parsed
rows with success. -/
theorem c10_csv_no_confinement (w : World) (input : PyVal) (p : Str)
    (hp : pyGet input "path".data (.str "".data) = .ok (.str p))
    (hd : pyGet input "delimiter".data (.str ",".data) = .ok (.str [','])) :
    (execute_csv_read w input).2 = [.fsRead (w.abspath p)]
    ∧ (∀ content, w.readFile (w.abspath p) = .ok content →
        execute_csv_read w input
          = (.ok (.dict [("success".data, .bool true),
                         ("data".data,
                          .list ((csvDictRows ',' content).map PyVal.dict)),
                         ("row_count".data,
                          .num ((csvDictRows ',' content).length : ℚ)),
                         ("columns".data,
                          .list (match csvDictRows ',' content with
                                 | [] => []
                                 | r :: _ =>
                                     r.map (fun kv => PyVal.str kv.1)))]),
             [.fsRead (w.abspath p)]))
    ∧ (w.home.isPrefixOf (w.abspath p) = false →
       "/tmp".data.isPrefixOf (w.abspath p) = false →
       execute_file_read w input
         = (.ok (errDict
             "Access denied: Can only read files in home directory".data),
            [])) := by
  obtain ⟨kvs, rfl⟩ := pyGet_ok_dict hp
  refine ⟨?_, ?_, ?_⟩
  · simp only [execute_csv_read, hp, hd]
    rcases hr : w.readFile (w.abspath p) with e | content <;> simp [hr]
  · intro content hr
    simp only [execute_csv_read, hp, hd, hr]
  · intro hout htmp
    simp only [execute_file_read, hp]
    simp only [pyGet]
    simp [hout, htmp]

theorem c10_csv_no_confinement_witness :
    execute_csv_read
      { testWorld with readFile := fun _ => .ok "a,b\n1,2\n".data }
      (.dict [("path".data, .str "/etc/table.csv".data)])
      = (.ok (.dict [("success".data, .bool true),
                     ("data".data,
                      .list ((csvDictRows ',' "a,b\n1,2\n".data).map
                        PyVal.dict)),
                     ("row_count".data,
                      .num ((csvDictRows ',' "a,b\n1,2\n".data).length : ℚ)),
                     ("columns".data,
                      .list (match csvDictRows ',' "a,b\n1,2\n".data with
                             | [] => []
                             | r :: _ =>
                                 r.map (fun kv => PyVal.str kv.1)))]),
         [.fsRead "/etc/table.csv".data])
    ∧ execute_file_read
        { testWorld with readFile := fun _ => .ok "a,b\n1,2\n".data }
        (.dict [("path".data, .str "/etc/table.csv".data)])
        = (.ok (errDict
            "Access denied: Can only read files in home directory".data),
           []) := by
  have h := c10_csv_no_confinement
    { testWorld with readFile := fun _ => .ok "a,b\n1,2\n".data }
    (.dict [("path".data, .str "/etc/table.csv".data)])
    "/etc/table.csv".data rfl rfl
  exact ⟨h.2.1 "a,b\n1,2\n".data rfl, h.2.2 rfl rfl⟩

theorem resultWellFormed_errDict (m : Str) : resultWellFormed (errDict m) :=
  ⟨_, false, rfl, rfl, Or.inl ⟨m, rfl⟩⟩

theorem calculator_wf (pyParse : Str → Option PyExpr) (input : PyVal) :
    resultWellFormed (wrapExec (execute_calculator pyParse input)).1 := by
  unfold execute_calculator
  dsimp only
  repeat' split
  all_goals first
    | exact resultWellFormed_errDict _
    | exact ⟨_, true, rfl, rfl, Or.inr (by simp)⟩

theorem web_search_wf (w : World) (input : PyVal)
    (credentials : Option PyVal) :
    resultWellFormed (wrapExec (execute_web_search w input credentials)).1 := by
  unfold execute_web_search
  dsimp only
  repeat' split
  all_goals first
    | exact resultWellFormed_errDict _
    | exact ⟨_, true, rfl, rfl, Or.inr (by simp)⟩

theorem file_read_wf (w : World) (input : PyVal) :
    resultWellFormed (wrapExec (execute_file_read w input)).1 := by
  unfold execute_file_read
  dsimp only
  repeat' split
  all_goals first
    | exact resultWellFormed_errDict _
    | exact ⟨_, true, rfl, rfl, Or.inr (by simp)⟩

theorem file_write_wf (w : World) (input : PyVal) :
    resultWellFormed (wrapExec (execute_file_write w input)).1 := by
  unfold execute_file_write
  dsimp only
  repeat' split
  all_goals first
    | exact resultWellFormed_errDict _
    | exact ⟨_, true, rfl, rfl, Or.inr (by simp)⟩

theorem code_wf (w : World) (input : PyVal) :
    resultWellFormed (wrapExec (execute_code w input)).1 := by
  unfold execute_code
  dsimp only
  repeat' split
  all_goals first
    | exact resultWellFormed_errDict _
    | exact ⟨_, _, rfl, rfl, Or.inr (by simp)⟩

theorem csv_wf (w : World) (input : PyVal) :
    resultWellFormed (wrapExec (execute_csv_read w input)).1 := by
  unfold execute_csv_read
  dsimp only
  repeat' split
  all_goals first
    | exact resultWellFormed_errDict _
    | exact ⟨_, true, rfl, rfl, Or.inr (by simp)⟩

theorem http_wf (w : World) (input : PyVal) :
    resultWellFormed (wrapExec (execute_http_request w input)).1 := by
  unfold execute_http_request
  dsimp only
  repeat' split
  all_goals first
    | exact resultWellFormed_errDict _
    | exact ⟨_, true, rfl, rfl, Or.inr (by simp)⟩
    | exact ⟨_, false, rfl, rfl, Or.inl ⟨_, rfl⟩⟩

/-- C7: for every tool identifier, input value, credential value and
oracle, `ToolExecutor.execute` returns a result dict of the uniform
shape — a boolean success flag plus either an error string or a result
payload — and never lets an exception escape the executor boundary
(every raise inside a handler is converted to an error dict by the
surrounding catch); an identifier outside the dispatch table yields the
uniform not-implemented error dict with no effect. -/
theorem c7_executor_uniform (w : World) (tool_id : Str) (input : PyVal)
    (credentials : Option PyVal) :
    resultWellFormed (ToolExecutor.execute w tool_id input credentials).1
    ∧ (tool_id ∉ knownTools →
        ToolExecutor.execute w tool_id input credentials
          = (errDict ("Tool ".data ++ ['\''] ++ tool_id ++ ['\'']
              ++ " not implemented locally".data), [])) := by
  constructor
  · unfold ToolExecutor.execute
    repeat' split
    all_goals first
      | exact calculator_wf w.pyParse input
      | exact web_search_wf w input credentials
      | exact file_read_wf w input
      | exact file_write_wf w input
      | exact code_wf w input
      | exact csv_wf w input
      | exact http_wf w input
      | exact resultWellFormed_errDict _
  · intro hun
    simp only [knownTools, List.mem_cons, List.not_mem_nil, or_false] at hun
    push_neg at hun
    obtain ⟨n1, n2, n3, n4, n5, n6, n7⟩ := hun
    simp [ToolExecutor.execute, n1, n2, n3, n4, n5, n6, n7]

theorem c7_executor_uniform_witness :
    ToolExecutor.execute testWorld "sql_query".data (.dict [])
        (some (.dict []))
      = (errDict ("Tool ".data ++ ['\''] ++ "sql_query".data ++ ['\'']
          ++ " not implemented locally".data), []) :=
  (c7_executor_uniform testWorld "sql_query".data (.dict [])
    (some (.dict []))).2 (by decide)

theorem ptcLoop_results (w : World) (credentials : Option PyVal) :
    ∀ (ms : List (Str × Str)) (resp : Str),
      (ptcLoop w credentials ms resp).2.1
        = ms.map (matchEntry w credentials) := by
  intro ms
  induction ms with
  | nil => intro resp; rfl
  | cons m rest ih =>
      intro resp
      obtain ⟨tid, pstr⟩ := m
      simp only [ptcLoop, matchEntry, List.map_cons]
      rcases hj : jparse pstr with _ | params <;> simp only [hj] <;>
        simp [ih]

/-- C8: in `process_tool_calls` every regex match yields exactly one
`tool_results` entry: a match whose argument text fails to decode as
JSON is dropped (never executed) and reported as a per-invocation
parse-error entry, while every remaining match is still processed
normally — the turn is never aborted by a single malformed payload. -/
theorem c8_malformed_payload (w : World) (credentials : Option PyVal)
    (response : Str) :
    (process_tool_calls w credentials response).2.1
      = (findall response).map (matchEntry w credentials)
    ∧ (∀ tid pstr, (tid, pstr) ∈ findall response →
        jparse pstr = Option.none →
        matchEntry w credentials (tid, pstr) = parseErrEntry tid)
    ∧ (∀ tid pstr params, (tid, pstr) ∈ findall response →
        jparse pstr = some params →
        matchEntry w credentials (tid, pstr)
          = toolEntry tid params
              (ToolExecutor.execute w tid params credentials).1)
    ∧ ((process_tool_calls w credentials response).2.1).length
      = (findall response).length := by
  have h1 := ptcLoop_results w credentials (findall response) response
  refine ⟨h1, ?_, ?_, ?_⟩
  · intro tid pstr _ hj
    simp [matchEntry, hj]
  · intro tid pstr params _ hj
    simp [matchEntry, hj]
  · simp only [process_tool_calls]
    rw [h1, List.length_map]

theorem c8_malformed_payload_witness :
    (process_tool_calls testWorld (some (.dict []))
        ("[TOOL: alpha] \x7bbad\x7d [TOOL: calculator] "
          ++ "\x7b\"expression\": \"7\"\x7d").data).2.1
      = [parseErrEntry "alpha".data,
         toolEntry "calculator".data
           (.dict [("expression".data, .str "7".data)])
           (ToolExecutor.execute testWorld "calculator".data
             (.dict [("expression".data, .str "7".data)])
             (some (.dict []))).1]
    ∧ matchEntry testWorld (some (.dict []))
        ("alpha".data, "\x7bbad\x7d".data)
      = parseErrEntry "alpha".data := by
  have h := c8_malformed_payload testWorld (some (.dict []))
    ("[TOOL: alpha] \x7bbad\x7d [TOOL: calculator] "
      ++ "\x7b\"expression\": \"7\"\x7d").data
  constructor
  · rw [h.1]
    rfl
  · exact h.2.1 "alpha".data "\x7bbad\x7d".data (by decide) rfl

theorem dropLit_append : ∀ lit t : Str, dropLit lit (lit ++ t) = some t := by
  intro lit
  induction lit with
  | nil => intro t; rfl
  | cons c cs ih => intro t; simp [dropLit, ih]

theorem isWordChar_not_space {c : Char} (h : isWordChar c = true) :
    isSpaceChar c = false := by
  by_contra hc
  rw [Bool.not_eq_false] at hc
  simp only [isSpaceChar, Bool.or_eq_true, decide_eq_true_eq] at hc
  rcases hc with ((((h2 | h2) | h2) | h2) | h2) | h2 <;> subst h2 <;>
    exact absurd h (by decide)

theorem takeWhile_append_stop {p : Char → Bool} :
    ∀ (l : Str) (d : Char) (t : Str), (∀ c ∈ l, p c = true) → p d = false →
      (l ++ d :: t).takeWhile p = l := by
  intro l
  induction l with
  | nil =>
      intro d t _ hd
      simp [List.takeWhile_cons, hd]
  | cons c l2 ih =>
      intro d t hl hd
      simp only [List.cons_append, List.takeWhile_cons,
        hl c (List.mem_cons_self c l2), if_true]
      rw [ih d t (fun x hx => hl x (List.mem_cons_of_mem c hx)) hd]

theorem matchMarker_canonical (tid body t : Str)
    (htid : tid ≠ []) (hw : ∀ c ∈ tid, isWordChar c = true)
    (hbody : body ≠ []) (hb : '\x7d' ∉ body) :
    matchMarker (("[TOOL: ".data ++ tid ++ "] ".data
        ++ ('\x7b' :: (body ++ ['\x7d']))) ++ t)
      = some (tid, '\x7b' :: (body ++ ['\x7d']), t) := by
  obtain ⟨c, tid2, rfl⟩ := List.exists_cons_of_ne_nil htid
  have hcw : isWordChar c = true := hw c (List.mem_cons_self c tid2)
  have hcs : isSpaceChar c = false := isWordChar_not_space hcw
  have hbe : body.isEmpty = false := by
    cases body with
    | nil => exact absurd rfl hbody
    | cons a b => rfl
  have harg : ((("[TOOL: ".data ++ (c :: tid2)) ++ "] ".data)
        ++ ('\x7b' :: (body ++ ['\x7d']))) ++ t
      = "[TOOL:".data ++ (' ' :: ((c :: tid2) ++ (']' :: ' ' ::
          '\x7b' :: (body ++ ('\x7d' :: t))))) := by
    simp [List.append_assoc]
  rw [harg]
  simp only [matchMarker, dropLit_append, Option.some_bind]
  rw [List.dropWhile_cons, if_pos (show isSpaceChar ' ' = true from rfl)]
  rw [show ((c :: tid2) ++ (']' :: ' ' :: '\x7b' ::
        (body ++ ('\x7d' :: t)))).dropWhile isSpaceChar
      = (c :: tid2) ++ (']' :: ' ' :: '\x7b' :: (body ++ ('\x7d' :: t)))
    from by rw [List.cons_append, List.dropWhile_cons, if_neg (by simp [hcs])]]
  rw [takeWhile_append_stop (c :: tid2) ']' _ hw (by decide)]
  simp only [List.isEmpty_cons, Bool.false_eq_true, if_false]
  rw [List.drop_left]
  simp only [expectChar, eq_self_iff_true, if_true, Option.some_bind]
  rw [List.dropWhile_cons, if_pos (show isSpaceChar ' ' = true from rfl)]
  rw [List.dropWhile_cons, if_neg (by decide)]
  simp only [expectChar, eq_self_iff_true, if_true, Option.some_bind]
  have hbp : ∀ x ∈ body, (fun ch => !(ch = '\x7d' : Bool)) x = true := by
    intro x hx
    have : x ≠ '\x7d' := fun he => hb (he ▸ hx)
    simp [this]
  rw [takeWhile_append_stop body '\x7d' t hbp (by decide)]
  rw [hbe]
  simp only [Bool.false_eq_true, if_false]
  rw [List.drop_left]
  simp only [expectChar, eq_self_iff_true, if_true, Option.map_some']

theorem matchMarker_not_bracket {c : Char} (s : Str) (h : c ≠ '[') :
    matchMarker (c :: s) = Option.none := by
  have : dropLit "[TOOL:".data (c :: s) = Option.none := by
    simp only [dropLit]
    rw [if_neg h]
  simp [matchMarker, this]

theorem findallAux_no_bracket :
    ∀ (s : Str), '[' ∉ s → ∀ f, findallAux f s = [] := by
  intro s
  induction s with
  | nil => intro _ f; cases f <;> rfl
  | cons c rest ih =>
      intro hB f
      simp only [List.mem_cons] at hB
      push_neg at hB
      cases f with
      | zero => rfl
      | succ n =>
          simp only [findallAux,
            matchMarker_not_bracket rest (fun he => hB.1 he.symm)]
          exact ih hB.2 n

theorem findallAux_append_skip :
    ∀ (l : Str), '[' ∉ l → ∀ (f : ℕ) (t : Str),
      findallAux (l.length + f) (l ++ t) = findallAux f t := by
  intro l
  induction l with
  | nil => intro _ f t; simp
  | cons c l2 ih =>
      intro hB f t
      simp only [List.mem_cons] at hB
      push_neg at hB
      rw [List.length_cons, List.cons_append, Nat.add_right_comm]
      simp only [findallAux,
        matchMarker_not_bracket (l2 ++ t) (fun he => hB.1 he.symm)]
      exact ih hB.2 f t

theorem findall_single (pre tid body post : Str)
    (hpre : '[' ∉ pre) (hpost : '[' ∉ post)
    (htid : tid ≠ []) (hw : ∀ c ∈ tid, isWordChar c = true)
    (hbody : body ≠ []) (hb : '\x7d' ∉ body) :
    findall (pre ++ ("[TOOL: ".data ++ tid ++ "] ".data
        ++ ('\x7b' :: (body ++ ['\x7d']))) ++ post)
      = [(tid, '\x7b' :: (body ++ ['\x7d']))] := by
  unfold findall
  have hmc := matchMarker_canonical tid body post htid hw hbody hb
  generalize hM : ("[TOOL: ".data ++ tid ++ "] ".data
      ++ ('\x7b' :: (body ++ ['\x7d']))) = M
  rw [hM] at hmc
  have hlen : (pre ++ M ++ post).length + 1
      = pre.length + ((M ++ post).length + 1) := by
    simp [List.length_append]
    omega
  rw [hlen, List.append_assoc, findallAux_append_skip pre hpre]
  simp only [findallAux, hmc]
  rw [findallAux_no_bracket post hpost]

theorem isPrefixOf_append_self : ∀ l t : Str, l.isPrefixOf (l ++ t) = true := by
  intro l
  induction l with
  | nil => intro t; simp
  | cons c cs ih => intro t; simp [List.isPrefixOf, ih]

theorem replaceAllAux_no_bracket (os new : Str) :
    ∀ (s : Str), '[' ∉ s → ∀ f, replaceAllAux f s ('[' :: os) new = s := by
  intro s
  induction s with
  | nil => intro _ f; cases f <;> rfl
  | cons c rest ih =>
      intro hB f
      simp only [List.mem_cons] at hB
      push_neg at hB
      cases f with
      | zero => rfl
      | succ n =>
          have hne : ('[' == c) = false :=
            beq_eq_false_iff_ne.mpr (fun he => hB.1 he)
          simp only [replaceAllAux]
          rw [if_neg (by simp [List.isPrefixOf, hne])]
          rw [ih hB.2 n]

theorem replaceAllAux_skip (os new : Str) :
    ∀ (l : Str), '[' ∉ l → ∀ (f : ℕ) (t : Str),
      replaceAllAux (l.length + f) (l ++ t) ('[' :: os) new
        = l ++ replaceAllAux f t ('[' :: os) new := by
  intro l
  induction l with
  | nil => intro _ f t; simp
  | cons c l2 ih =>
      intro hB f t
      simp only [List.mem_cons] at hB
      push_neg at hB
      rw [List.length_cons, List.cons_append, Nat.add_right_comm]
      have hne : ('[' == c) = false :=
        beq_eq_false_iff_ne.mpr (fun he => hB.1 he)
      simp only [replaceAllAux]
      rw [if_neg (by simp [List.isPrefixOf, hne])]
      rw [ih hB.2 f t, List.cons_append]

theorem replaceAllAux_hit (os new t : Str) (f : ℕ) :
    replaceAllAux (f + 1) (('[' :: os) ++ t) ('[' :: os) new
      = new ++ replaceAllAux f t ('[' :: os) new := by
  have hpf : (('[' :: os).isPrefixOf ('[' :: (os ++ t))) = true :=
    isPrefixOf_append_self ('[' :: os) t
  simp only [replaceAllAux, List.cons_append]
  rw [if_pos hpf, List.drop_left]

theorem replaceAll_single (pre post os new : Str)
    (hpre : '[' ∉ pre) (hpost : '[' ∉ post) :
    replaceAll (pre ++ ('[' :: os) ++ post) ('[' :: os) new
      = pre ++ new ++ post := by
  unfold replaceAll
  have hlen : (pre ++ ('[' :: os) ++ post).length + 1
      = pre.length + ((os.length + post.length + 1) + 1) := by
    simp [List.length_append]
    omega
  rw [hlen, List.append_assoc, replaceAllAux_skip os new pre hpre]
  rw [replaceAllAux_hit os new post]
  rw [replaceAllAux_no_bracket os new post hpost]
  rw [List.append_assoc]

theorem subOccurs_decomp {sub : Str} :
    ∀ {s : Str}, subOccurs sub s = true → ∃ a b, s = a ++ sub ++ b := by
  intro s
  induction s with
  | nil =>
      intro h
      simp only [subOccurs, Bool.or_eq_true] at h
      rcases h with h | h
      · cases sub with
        | nil => exact ⟨[], [], rfl⟩
        | cons c cs => simp [List.isPrefixOf] at h
      · simp at h
  | cons c rest ih =>
      intro h
      simp only [subOccurs, Bool.or_eq_true] at h
      rcases h with h | h
      · obtain ⟨b, hb⟩ := List.isPrefixOf_iff_prefix.mp h
        exact ⟨[], b, by simpa using hb.symm⟩
      · obtain ⟨a, b, rfl⟩ := ih h
        exact ⟨c :: a, b, by simp⟩

theorem unique_split {c : Char} :
    ∀ (a1 a2 x1 x2 : Str), c ∉ a1 → c ∉ a2 →
      a1 ++ c :: x1 = a2 ++ c :: x2 → a1 = a2 ∧ x1 = x2 := by
  intro a1
  induction a1 with
  | nil =>
      intro a2 x1 x2 _ h2 heq
      cases a2 with
      | nil => simpa using heq
      | cons d a2' =>
          simp only [List.nil_append, List.cons_append, List.cons.injEq] at heq
          exact absurd (List.mem_cons.mpr (Or.inl heq.1)) h2
  | cons e a1' ih =>
      intro a2 x1 x2 h1 h2 heq
      cases a2 with
      | nil =>
          simp only [List.nil_append, List.cons_append, List.cons.injEq] at heq
          exact absurd (List.mem_cons.mpr (Or.inl heq.1.symm)) h1
      | cons d a2' =>
          simp only [List.cons_append, List.cons.injEq] at heq
          obtain ⟨rfl, heq2⟩ := heq
          have hT := ih a2' x1 x2
            (fun hm => h1 (List.mem_cons_of_mem e hm))
            (fun hm => h2 (List.mem_cons_of_mem e hm)) heq2
          exact ⟨by rw [hT.1], hT.2⟩

theorem no_marker_in_rewritten (pre post tid dump : Str)
    (hpre : '[' ∉ pre) (hpost : '[' ∉ post) (htid : '[' ∉ tid)
    (hdump : '[' ∉ dump) :
    subOccurs "[TOOL:".data
      (pre ++ ("[Tool ".data ++ tid ++ " result: ".data ++ dump
        ++ "]".data) ++ post) = false := by
  by_contra hcon
  rw [Bool.not_eq_false] at hcon
  obtain ⟨a, b, hab⟩ := subOccurs_decomp hcon
  have hs : pre ++ ("[Tool ".data ++ tid ++ " result: ".data ++ dump
      ++ "]".data) ++ post
      = pre ++ '[' :: ("Tool ".data ++ (tid ++ (" result: ".data
          ++ (dump ++ (']' :: post))))) := by
    simp [List.append_assoc]
  have hsub : a ++ "[TOOL:".data ++ b = a ++ '[' :: ("TOOL:".data ++ b) := by
    simp [List.append_assoc]
  rw [hs, hsub] at hab
  have hcnt := congrArg (fun l => List.count '[' l) hab
  have c1 : List.count '[' ("Tool ".data) = 0 := by decide
  have c2 : List.count '[' (" result: ".data) = 0 := by decide
  have c3 : List.count '[' ("TOOL:".data) = 0 := by decide
  simp only [List.count_append, List.count_cons, List.count_eq_zero.mpr hpre,
    List.count_eq_zero.mpr hpost, List.count_eq_zero.mpr htid,
    List.count_eq_zero.mpr hdump, c1, c2, c3] at hcnt
  have hca : List.count '[' a = 0 := by
    simp at hcnt
    omega
  have hna : '[' ∉ a := List.count_eq_zero.mp hca
  have hu := unique_split pre a
    ("Tool ".data ++ (tid ++ (" result: ".data ++ (dump ++ (']' :: post)))))
    ("TOOL:".data ++ b) hpre hna hab
  have hbad := hu.2
  simp [List.cons_append] at hbad

/-- C3 (amended): for reply text containing exactly one tool-call
marker written in the canonical form `[TOOL: name] {args}` — single
spaces, and a flat JSON argument object whose only closing brace is
its final character — with arguments that decode as JSON,
`process_tool_calls` extracts exactly one invocation whose tool id
and argument mapping equal the embedded values, and the rewritten
text replaces the marker span by the summary of the tool's result;
when that summary carries no opening bracket the rewritten text
contains no raw `[TOOL:` marker syntax.  (As stated the claim is
false: a nested argument object — valid JSON — is truncated by the
regex and reported as a parse error with the marker left in place;
see the counterexample.) -/
theorem c3_parser_roundtrip (w : World) (credentials : Option PyVal)
    (pre post tid body : Str) (params : PyVal)
    (hpre : '[' ∉ pre) (hpost : '[' ∉ post)
    (htid : tid ≠ []) (hw : ∀ c ∈ tid, isWordChar c = true)
    (hbody : body ≠ []) (hb : '\x7d' ∉ body)
    (hjson : jparse ('\x7b' :: (body ++ ['\x7d'])) = some params) :
    (process_tool_calls w credentials
        (pre ++ ("[TOOL: ".data ++ tid ++ "] ".data
          ++ ('\x7b' :: (body ++ ['\x7d']))) ++ post)).2.1
      = [toolEntry tid params
          (ToolExecutor.execute w tid params credentials).1]
    ∧ (process_tool_calls w credentials
        (pre ++ ("[TOOL: ".data ++ tid ++ "] ".data
          ++ ('\x7b' :: (body ++ ['\x7d']))) ++ post)).1
      = pre ++ resultSummary tid
          (ToolExecutor.execute w tid params credentials).1 ++ post
    ∧ ('[' ∉ jdump (resSummaryVal
          (ToolExecutor.execute w tid params credentials).1) →
        subOccurs "[TOOL:".data
          (process_tool_calls w credentials
            (pre ++ ("[TOOL: ".data ++ tid ++ "] ".data
              ++ ('\x7b' :: (body ++ ['\x7d']))) ++ post)).1 = false) := by
  have hfind := findall_single pre tid body post hpre hpost htid hw hbody hb
  have htidB : '[' ∉ tid := fun hm => absurd (hw '[' hm) (by decide)
  have hmold : "[TOOL: ".data ++ tid ++ "] ".data
        ++ ('\x7b' :: (body ++ ['\x7d']))
      = '[' :: ("TOOL: ".data ++ (tid ++ ("] ".data
          ++ ('\x7b' :: (body ++ ['\x7d']))))) := by
    simp [List.append_assoc]
  have holdT : oldText tid ('\x7b' :: (body ++ ['\x7d']))
      = '[' :: ("TOOL: ".data ++ (tid ++ ("] ".data
          ++ ('\x7b' :: (body ++ ['\x7d']))))) := by
    simp [oldText, List.append_assoc]
  simp only [process_tool_calls, hfind, ptcLoop, hjson]
  rw [holdT, hmold, replaceAll_single pre post _ _ hpre hpost]
  refine ⟨by trivial, by trivial, ?_⟩
  intro hdump
  simp only [resultSummary]
  exact no_marker_in_rewritten pre post tid _ hpre hpost htidB hdump

theorem c3_parser_roundtrip_witness :
    (process_tool_calls testWorld (some (.dict []))
        ("Say ".data ++ ("[TOOL: ".data ++ "calculator".data ++ "] ".data
          ++ ('\x7b' :: ("\"expression\": \"7\"".data ++ ['\x7d'])))
          ++ " ok".data)).2.1
      = [toolEntry "calculator".data
          (.dict [("expression".data, .str "7".data)])
          (ToolExecutor.execute testWorld "calculator".data
            (.dict [("expression".data, .str "7".data)])
            (some (.dict []))).1]
    ∧ subOccurs "[TOOL:".data
        (process_tool_calls testWorld (some (.dict []))
          ("Say ".data ++ ("[TOOL: ".data ++ "calculator".data ++ "] ".data
            ++ ('\x7b' :: ("\"expression\": \"7\"".data ++ ['\x7d'])))
            ++ " ok".data)).1 = false := by
  have h := c3_parser_roundtrip testWorld (some (.dict []))
    "Say ".data " ok".data "calculator".data "\"expression\": \"7\"".data
    (.dict [("expression".data, .str "7".data)])
    (by decide) (by decide) (by decide) (by decide) (by decide) (by decide)
    rfl
  exact ⟨h.1, h.2.2 (by decide)⟩

/-- C3 counterexample: the reply text
`Run [TOOL: calculator] {"a": {"b": 1}} now` contains exactly one
well-formed marker whose argument object `{"a": {"b": 1}}` is valid
JSON, but the regex character class `[^}]+` truncates the captured
argument text at the first closing brace: the decode fails, the
parser reports a parse-error entry instead of one invocation carrying
the embedded arguments, and the returned text still contains the raw
marker syntax. -/
theorem c3_counterexample :
    jparse "\x7b\"a\": \x7b\"b\": 1\x7d\x7d".data
      = some (.dict [("a".data, .dict [("b".data, .num 1)])])
    ∧ (process_tool_calls testWorld (some (.dict []))
        "Run [TOOL: calculator] \x7b\"a\": \x7b\"b\": 1\x7d\x7d now".data).2.1
      = [parseErrEntry "calculator".data]
    ∧ subOccurs "[TOOL:".data
        (process_tool_calls testWorld (some (.dict []))
          "Run [TOOL: calculator] \x7b\"a\": \x7b\"b\": 1\x7d\x7d now".data).1
      = true :=
  ⟨rfl, rfl, rfl⟩

end AgentForge
